import Mathlib

/-!
# REMChannel: the `HelloWorld` chaincode of `hello_world.go`

A shallow embedding of the chaincode (argument validation, the record codec,
the eight operation handlers and the dispatcher) over a model of the ledger
stub it talks to, followed by the properties the specification states.

Conventions of the embedding.

* Go `string` and `[]byte` values are finite byte sequences (`GoString`);
  `len` is the number of bytes.
* A Go run-time fault (index out of range, failed type assertion) is `none`;
  every handler returns `Option (Response × Stub)`.
* The ledger stub is explicit state: the world state, the write history, the
  log of requests the chaincode issued, and the outcome the peer gives to the
  requests of the running invocation (each request may fail with an error).
* Calls to the logger are left out: they write to no value the chaincode reads.
* The standard library is modelled as far as the chaincode uses it
  (`unicode/utf8`, `strings.ToLower`, `strings.Replace`, `encoding/json` on
  the `Doc` structure). Its Unicode tables are not part of the repository and
  are parameters (`Lib`).
-/

namespace REMChannel

/-! ## Bytes and strings -/

/-- One byte. -/
abbrev Byte := Fin 256

/-- Go `string` / `[]byte`: a finite sequence of bytes. -/
abbrev GoString := List Byte

/-- Conversion `byte(n)` of a non-negative number (truncation to eight bits). -/
def byte (n : Nat) : Byte := Fin.ofNat n

/-- The bytes (UTF-8) of a string literal of the source. -/
def lit (s : String) : GoString :=
  (s.toList.flatMap String.utf8EncodeChar).map (fun b => b.val)

/-! ## `unicode/utf8` -/

/-- Constant `utf8.RuneError` (U+FFFD). -/
def RuneError : Nat := 0xFFFD

/-- Function `utf8.DecodeRune`: the first rune of `p` and its width in bytes.
An empty input gives `(RuneError, 0)`, an ill-formed one `(RuneError, 1)`.
The masks and shifts of the source are written with `%` and `*`; the second
byte is checked against the accept range of the first (`acceptRanges`). -/
def DecodeRune (p : GoString) : Nat × Nat :=
  match p with
  | [] => (RuneError, 0)
  | p0 :: rest =>
    if p0.val < 0x80 then (p0.val, 1)
    else if p0.val < 0xC2 ∨ 0xF4 < p0.val then (RuneError, 1)
    else
      let lo := if p0.val = 0xE0 then 0xA0 else if p0.val = 0xF0 then 0x90 else 0x80
      let hi := if p0.val = 0xED then 0x9F else if p0.val = 0xF4 then 0x8F else 0xBF
      if p0.val < 0xE0 then
        match rest with
        | b1 :: _ =>
          if b1.val < lo ∨ hi < b1.val then (RuneError, 1)
          else ((p0.val % 32) * 64 + b1.val % 64, 2)
        | _ => (RuneError, 1)
      else if p0.val < 0xF0 then
        match rest with
        | b1 :: b2 :: _ =>
          if b1.val < lo ∨ hi < b1.val then (RuneError, 1)
          else if b2.val < 0x80 ∨ 0xBF < b2.val then (RuneError, 1)
          else ((p0.val % 16) * 4096 + (b1.val % 64) * 64 + b2.val % 64, 3)
        | _ => (RuneError, 1)
      else
        match rest with
        | b1 :: b2 :: b3 :: _ =>
          if b1.val < lo ∨ hi < b1.val then (RuneError, 1)
          else if b2.val < 0x80 ∨ 0xBF < b2.val then (RuneError, 1)
          else if b3.val < 0x80 ∨ 0xBF < b3.val then (RuneError, 1)
          else ((p0.val % 8) * 262144 + (b1.val % 64) * 4096 + (b2.val % 64) * 64
                  + b3.val % 64, 4)
        | _ => (RuneError, 1)

/-- Function `utf8.EncodeRune` (also `AppendRune`, `Builder.WriteRune`): the
UTF-8 bytes of rune `r`; a surrogate or a value above U+10FFFF is written as
`RuneError`. -/
def EncodeRune (r : Nat) : GoString :=
  if r ≤ 0x7F then [byte r]
  else if r ≤ 0x7FF then [byte (0xC0 + r / 64), byte (0x80 + r % 64)]
  else if 0x10FFFF < r ∨ (0xD800 ≤ r ∧ r ≤ 0xDFFF) then [byte 0xEF, byte 0xBF, byte 0xBD]
  else if r ≤ 0xFFFF then
    [byte (0xE0 + r / 4096), byte (0x80 + r / 64 % 64), byte (0x80 + r % 64)]
  else
    [byte (0xF0 + r / 262144), byte (0x80 + r / 4096 % 64), byte (0x80 + r / 64 % 64),
      byte (0x80 + r % 64)]

/-- The runes of a string as `for _, c := range s` yields them: one
`DecodeRune` after the other, an ill-formed byte counting as `RuneError`.
The first argument bounds the number of steps; `s.length` is enough, since
every step consumes at least one byte. -/
def decodeRunes : Nat → GoString → List Nat
  | 0, _ => []
  | _ + 1, [] => []
  | n + 1, b :: s =>
    (DecodeRune (b :: s)).1 :: decodeRunes n ((b :: s).drop (DecodeRune (b :: s)).2)

/-- Function `utf8.ValidString`: no step of the decoding meets an ill-formed
byte. -/
def ValidString : Nat → GoString → Bool
  | 0, s => s.isEmpty
  | _ + 1, [] => true
  | n + 1, b :: s =>
    !((DecodeRune (b :: s)).1 = RuneError ∧ (DecodeRune (b :: s)).2 = 1)
      && ValidString n ((b :: s).drop (DecodeRune (b :: s)).2)

/-! ## Library parameters -/

/-- The parts of Go's standard library that are tables outside the repository.
`unicodeToLower` is `unicode.ToLower` on runes above U+007F (the `CaseRanges`
table); `equalFold` is the case-insensitive comparison of a field name with an
object key that `encoding/json` falls back to when no field has exactly the
key's name. -/
structure Lib where
  unicodeToLower : Nat → Nat
  equalFold : GoString → GoString → Bool

/-! ## `strings` -/

/-- Function `unicode.ToLower`: the ASCII letters directly, the rest through
the case table. -/
def toLowerRune (lib : Lib) (r : Nat) : Nat :=
  if r ≤ 0x7F then (if 0x41 ≤ r ∧ r ≤ 0x5A then r + 0x20 else r)
  else lib.unicodeToLower r

/-- Function `strings.ToLower`. A string of ASCII bytes has its upper-case
letters shifted; any other string goes through `strings.Map(unicode.ToLower, s)`,
which re-encodes every rune of `s` after mapping it (an ill-formed byte comes
out as the encoding of the image of `RuneError`). -/
def ToLower (lib : Lib) (s : GoString) : GoString :=
  if s.all (fun c => decide (c.val < 0x80)) then
    s.map (fun c => if 0x41 ≤ c.val ∧ c.val ≤ 0x5A then byte (c.val + 0x20) else c)
  else
    (decodeRunes s.length s).flatMap (fun c => EncodeRune (toLowerRune lib c))

/-- Function `strings.Replace(s, "\"", ".", -1)` as the source calls it: every
double quote becomes a full stop. -/
def replaceQuotes (s : GoString) : GoString :=
  s.map (fun c => if c.val = 0x22 then byte 0x2E else c)

/-! ## Return handling -/

/-- Type `peer.Response`; `Payload = none` is the nil slice. -/
structure Response where
  Status : Int
  Message : GoString
  Payload : Option GoString
deriving DecidableEq, Repr

/-- Function `Success`. -/
def Success (rc : Int) (doc : GoString) (payload : Option GoString) : Response :=
  { Status := rc, Message := doc, Payload := payload }

/-- Function `Error` (the log line apart). -/
def Error (rc : Int) (doc : GoString) : Response :=
  { Status := rc, Message := doc, Payload := none }

/-! ## Validation -/

/-- A value of type `interface{}` as `Validate` receives them in `desc`. -/
inductive Iface where
  | str (s : GoString)
  | int (n : Int)
deriving DecidableEq, Repr

/-- The loop `for i := 0; i < nrArgs; i++` of `Validate`, from index `i` with
`todo = nrArgs - i` rounds left. An index out of range or a bound that is not
an `int` is a run-time fault (`none`). -/
def validateLoop (args : List GoString) (desc : List Iface) : Nat → Nat → Option Response
  | 0, _ => some (Success 0 (lit "OK") none)
  | todo + 1, i =>
    match desc[i * 3]? with
    | none => none
    | some kind =>
      if kind = Iface.str (lit "%s") then
        match desc[i * 3 + 1]?, desc[i * 3 + 2]?, args[i]? with
        | some (Iface.int minLength), some (Iface.int maxLength), some a =>
          if (a.length : Int) < minLength ∨ (a.length : Int) > maxLength then
            some (Error 400 (lit "Parameter Length Error"))
          else validateLoop args desc todo (i + 1)
        | _, _, _ => none
      else validateLoop args desc todo (i + 1)

/-- Function `Validate`. -/
def Validate (_funcName : GoString) (args : List GoString) (desc : List Iface) :
    Option Response :=
  let nrArgs := desc.length / 3
  if args.length ≠ nrArgs then some (Error 400 (lit "Parameter Mismatch"))
  else validateLoop args desc nrArgs 0

/-! ## `encoding/json`, as far as `Doc` uses it -/

/-- The table `hex = "0123456789abcdef"` of the encoder, at index `n`. -/
def hexDigit (n : Nat) : Byte := byte (if n < 10 then 0x30 + n else 0x57 + n)

/-- The body of `encodeState.string` with `escapeHTML` set, as `json.Marshal`
calls it: what stands between the two quotes of the JSON string for `s`. A
quote or backslash is escaped with a backslash; line feed, carriage return and
tab are written `\n`, `\r`, `\t`; any other byte below 0x20 and `<`, `>`, `&`
are written as `\u00` and two hexadecimal digits; an ill-formed byte is written
as the escape of U+FFFD; U+2028 and U+2029 are written as their escapes;
everything else is copied (releases of Go from 1.22 on write the bytes 0x08
and 0x0C as `\b` and `\f`; the decoder below reads either form). The first
argument bounds the number of steps (`s.length` is enough). -/
def encodeString : Nat → GoString → GoString
  | 0, _ => []
  | _ + 1, [] => []
  | n + 1, b :: s =>
    if b.val < 0x80 then
      (if b.val = 0x5C ∨ b.val = 0x22 then [byte 0x5C, b]
       else if b.val = 0x0A then [byte 0x5C, byte 0x6E]
       else if b.val = 0x0D then [byte 0x5C, byte 0x72]
       else if b.val = 0x09 then [byte 0x5C, byte 0x74]
       else if b.val < 0x20 ∨ b.val = 0x3C ∨ b.val = 0x3E ∨ b.val = 0x26 then
         [byte 0x5C, byte 0x75, byte 0x30, byte 0x30, hexDigit (b.val / 16),
           hexDigit (b.val % 16)]
       else [b]) ++ encodeString n s
    else if (DecodeRune (b :: s)).1 = RuneError ∧ (DecodeRune (b :: s)).2 = 1 then
      [byte 0x5C, byte 0x75, byte 0x66, byte 0x66, byte 0x66, byte 0x64] ++ encodeString n s
    else if (DecodeRune (b :: s)).1 = 0x2028 ∨ (DecodeRune (b :: s)).1 = 0x2029 then
      [byte 0x5C, byte 0x75, byte 0x32, byte 0x30, byte 0x32,
          hexDigit ((DecodeRune (b :: s)).1 % 16)]
        ++ encodeString n ((b :: s).drop (DecodeRune (b :: s)).2)
    else
      (b :: s).take (DecodeRune (b :: s)).2
        ++ encodeString n ((b :: s).drop (DecodeRune (b :: s)).2)

/-- A Go string as a JSON string: the escaped body between two quotes. -/
def quote (s : GoString) : GoString :=
  [byte 0x22] ++ encodeString s.length s ++ [byte 0x22]

/-- A JSON value as the decoder sees it (the value of a number is not kept:
no field of `Doc` takes one). -/
inductive JVal where
  | null
  | bool (b : Bool)
  | num
  | str (s : GoString)
  | arr (xs : List JVal)
  | obj (ms : List (GoString × JVal))

/-- JSON white space: space, tab, carriage return, line feed. -/
def isSpace (c : Byte) : Bool :=
  c.val = 0x20 || c.val = 0x09 || c.val = 0x0D || c.val = 0x0A

/-- Drop leading white space. -/
def skipSpace (s : GoString) : GoString := s.dropWhile isSpace

/-- A decimal digit. -/
def isDigit (c : Byte) : Bool := decide (0x30 ≤ c.val ∧ c.val ≤ 0x39)

/-- The value of a hexadecimal digit, if `c` is one. -/
def hexVal (c : Byte) : Option Nat :=
  if 0x30 ≤ c.val ∧ c.val ≤ 0x39 then some (c.val - 0x30)
  else if 0x61 ≤ c.val ∧ c.val ≤ 0x66 then some (c.val - 0x61 + 10)
  else if 0x41 ≤ c.val ∧ c.val ≤ 0x46 then some (c.val - 0x41 + 10)
  else none

/-- Function `getu4` after the `\u`: the rune written by four hexadecimal
digits, and what follows them. -/
def getu4 (s : GoString) : Option (Nat × GoString) :=
  match s with
  | h1 :: h2 :: h3 :: h4 :: rest =>
    match hexVal h1, hexVal h2, hexVal h3, hexVal h4 with
    | some a, some b, some c, some d => some (a * 4096 + b * 256 + c * 16 + d, rest)
    | _, _, _, _ => none
  | _ => none

/-- The scan of a string literal after its opening quote together with
`unquoteBytes`: the string it denotes and the input after the closing quote,
or `none` where the scanner rejects the literal (input ends, a byte below 0x20,
an escape other than the nine JSON knows). A `\u` surrogate takes a following
`\u` low surrogate with it when the two form a pair and is U+FFFD otherwise;
ill-formed UTF-8 is coerced to U+FFFD. The first argument bounds the number of
steps (`s.length + 1` is enough). -/
def parseStringBody : Nat → GoString → Option (GoString × GoString)
  | 0, _ => none
  | _ + 1, [] => none
  | n + 1, c :: s =>
    if c.val = 0x22 then some ([], s)
    else if c.val = 0x5C then
      match s with
      | [] => none
      | e :: s1 =>
        if e.val = 0x22 ∨ e.val = 0x5C ∨ e.val = 0x2F then
          (parseStringBody n s1).map (fun r => (e :: r.1, r.2))
        else if e.val = 0x62 then (parseStringBody n s1).map (fun r => (byte 0x08 :: r.1, r.2))
        else if e.val = 0x66 then (parseStringBody n s1).map (fun r => (byte 0x0C :: r.1, r.2))
        else if e.val = 0x6E then (parseStringBody n s1).map (fun r => (byte 0x0A :: r.1, r.2))
        else if e.val = 0x72 then (parseStringBody n s1).map (fun r => (byte 0x0D :: r.1, r.2))
        else if e.val = 0x74 then (parseStringBody n s1).map (fun r => (byte 0x09 :: r.1, r.2))
        else if e.val = 0x75 then
          match getu4 s1 with
          | none => none
          | some (rr, s2) =>
            if 0xD800 ≤ rr ∧ rr < 0xE000 then
              match s2 with
              | b1 :: b2 :: s3 =>
                match (if b1.val = 0x5C ∧ b2.val = 0x75 then getu4 s3 else none) with
                | some (rr1, s4) =>
                  if rr < 0xDC00 ∧ 0xDC00 ≤ rr1 ∧ rr1 < 0xE000 then
                    (parseStringBody n s4).map (fun r =>
                      (EncodeRune ((rr - 0xD800) * 1024 + (rr1 - 0xDC00) + 0x10000) ++ r.1, r.2))
                  else (parseStringBody n s2).map (fun r => (EncodeRune RuneError ++ r.1, r.2))
                | none => (parseStringBody n s2).map (fun r => (EncodeRune RuneError ++ r.1, r.2))
              | _ => (parseStringBody n s2).map (fun r => (EncodeRune RuneError ++ r.1, r.2))
            else (parseStringBody n s2).map (fun r => (EncodeRune rr ++ r.1, r.2))
        else none
    else if c.val < 0x20 then none
    else if c.val < 0x80 then (parseStringBody n s).map (fun r => (c :: r.1, r.2))
    else
      (parseStringBody n ((c :: s).drop (DecodeRune (c :: s)).2)).map
        (fun r => (EncodeRune (DecodeRune (c :: s)).1 ++ r.1, r.2))

/-- The exponent of a number, if there is one: `e` or `E`, an optional sign,
one digit or more. -/
def parseExp (s : GoString) : Option GoString :=
  match s with
  | c :: r =>
    if c.val = 0x65 ∨ c.val = 0x45 then
      match (match r with
             | d :: r1 => if d.val = 0x2B ∨ d.val = 0x2D then r1 else d :: r1
             | [] => []) with
      | d :: r2 => if isDigit d then some (r2.dropWhile isDigit) else none
      | [] => none
    else some (c :: r)
  | [] => some []

/-- The fraction of a number, if there is one (a point, one digit or more),
then the exponent. -/
def parseFrac (s : GoString) : Option GoString :=
  match s with
  | c :: r =>
    if c.val = 0x2E then
      match r with
      | d :: r1 => if isDigit d then parseExp (r1.dropWhile isDigit) else none
      | [] => none
    else parseExp (c :: r)
  | [] => some []

/-- A JSON number at the head of `s`: an optional minus, `0` or a digit from
1 to 9 followed by digits, then fraction and exponent. The rest of the input
is returned. -/
def parseNumber (s : GoString) : Option GoString :=
  match (match s with
         | c :: r => if c.val = 0x2D then r else c :: r
         | [] => []) with
  | d :: r =>
    if d.val = 0x30 then parseFrac r
    else if 0x31 ≤ d.val ∧ d.val ≤ 0x39 then parseFrac (r.dropWhile isDigit)
    else none
  | [] => none

/-- If `s` starts with the bytes `w`, what follows them. -/
def stripWord (w s : GoString) : Option GoString :=
  if w.isPrefixOf s then some (s.drop w.length) else none

mutual
/-- One JSON value at the head of the input (after optional white space) and
the input that follows it; `none` where the scanner of `encoding/json` reports
a syntax error. The first argument bounds the depth of the recursion. -/
def parseValue : Nat → GoString → Option (JVal × GoString)
  | 0, _ => none
  | n + 1, s =>
    match skipSpace s with
    | [] => none
    | c :: r =>
      if c.val = 0x7B then
        match skipSpace r with
        | d :: r1 =>
          if d.val = 0x7D then some (JVal.obj [], r1)
          else (parseMembers n (d :: r1)).map (fun p => (JVal.obj p.1, p.2))
        | [] => none
      else if c.val = 0x5B then
        match skipSpace r with
        | d :: r1 =>
          if d.val = 0x5D then some (JVal.arr [], r1)
          else (parseElements n (d :: r1)).map (fun p => (JVal.arr p.1, p.2))
        | [] => none
      else if c.val = 0x22 then
        (parseStringBody (r.length + 1) r).map (fun p => (JVal.str p.1, p.2))
      else if c.val = 0x74 then (stripWord (lit "true") (c :: r)).map (fun t => (JVal.bool true, t))
      else if c.val = 0x66 then
        (stripWord (lit "false") (c :: r)).map (fun t => (JVal.bool false, t))
      else if c.val = 0x6E then (stripWord (lit "null") (c :: r)).map (fun t => (JVal.null, t))
      else (parseNumber (c :: r)).map (fun t => (JVal.num, t))
/-- The members of an object from a key on, up to and including the closing
brace. -/
def parseMembers : Nat → GoString → Option (List (GoString × JVal) × GoString)
  | 0, _ => none
  | n + 1, s =>
    match skipSpace s with
    | q :: r =>
      if q.val = 0x22 then
        match parseStringBody (r.length + 1) r with
        | some (key, r1) =>
          match skipSpace r1 with
          | colon :: r2 =>
            if colon.val = 0x3A then
              match parseValue n r2 with
              | some (v, r3) =>
                match skipSpace r3 with
                | d :: r4 =>
                  if d.val = 0x2C then (parseMembers n r4).map (fun p => ((key, v) :: p.1, p.2))
                  else if d.val = 0x7D then some ([(key, v)], r4)
                  else none
                | [] => none
              | none => none
            else none
          | [] => none
        | none => none
      else none
    | [] => none
/-- The elements of an array from a value on, up to and including the closing
bracket. -/
def parseElements : Nat → GoString → Option (List JVal × GoString)
  | 0, _ => none
  | n + 1, s =>
    match parseValue n s with
    | some (v, r) =>
      match skipSpace r with
      | d :: r1 =>
        if d.val = 0x2C then (parseElements n r1).map (fun p => (v :: p.1, p.2))
        else if d.val = 0x5D then some ([v], r1)
        else none
      | [] => none
    | none => none
end

/-- A whole JSON text: one value with nothing but white space around it
(what `checkValid` accepts). Every round of the recursion consumes input, so
`2 * data.length + 2` rounds are enough for any text. -/
def parseJSON (data : GoString) : Option JVal :=
  match parseValue (2 * data.length + 2) data with
  | some (v, rest) => if (skipSpace rest).isEmpty then some v else none
  | none => none

/-! ## The document -/

/-- Type `Doc`. The struct tags of the source are not of the form
`json:"name"`, so `encoding/json` uses the Go field names. -/
structure Doc where
  DStatus : GoString
  Timestamp : GoString
  EdgeID : GoString
deriving DecidableEq, Repr

/-- The zero value `Doc{}`. -/
def Doc.zero : Doc := { DStatus := [], Timestamp := [], EdgeID := [] }

/-- The field an object key selects: the one of exactly that name, or else the
first whose name matches it without regard to case. -/
def fieldIndex (lib : Lib) (key : GoString) : Option Nat :=
  if key = lit "DStatus" then some 0
  else if key = lit "Timestamp" then some 1
  else if key = lit "EdgeID" then some 2
  else if lib.equalFold (lit "DStatus") key then some 0
  else if lib.equalFold (lit "Timestamp") key then some 1
  else if lib.equalFold (lit "EdgeID") key then some 2
  else none

/-- One member of the object stored into `doc`: a JSON string goes into the
field the key selects; any other value (`null`, or a value of the wrong type,
for which `Unmarshal` keeps an error and goes on) and any other key leave
`doc` as it is. -/
def Doc.setMember (lib : Lib) (doc : Doc) (m : GoString × JVal) : Doc :=
  match m.2, fieldIndex lib m.1 with
  | JVal.str s, some 0 => { doc with DStatus := s }
  | JVal.str s, some 1 => { doc with Timestamp := s }
  | JVal.str s, some 2 => { doc with EdgeID := s }
  | _, _ => doc

/-- Function `json.Unmarshal(data, doc)`, the returned error dropped: a text
that is not valid JSON, or whose value is not an object, stores nothing; the
members of an object are stored one after the other. -/
def Unmarshal (lib : Lib) (data : GoString) (doc : Doc) : Doc :=
  match parseJSON data with
  | some (JVal.obj ms) => ms.foldl (Doc.setMember lib) doc
  | _ => doc

/-- Function `json.Marshal(doc)`: the three fields under their Go names, in
the order of declaration. -/
def Marshal (doc : Doc) : GoString :=
  lit "\x7b\"DStatus\":" ++ quote doc.DStatus ++ lit ",\"Timestamp\":" ++ quote doc.Timestamp
    ++ lit ",\"EdgeID\":" ++ quote doc.EdgeID ++ lit "\x7d"

/-- Method `Doc.FromJson`. -/
def Doc.FromJson (lib : Lib) (doc : Doc) (input : GoString) : Doc :=
  Unmarshal lib input doc

/-- Method `Doc.ToJson`. -/
def Doc.ToJson (doc : Doc) : GoString := Marshal doc

/-! ## The ledger stub -/

/-- A request of the chaincode to the peer (`shim.ChaincodeStubInterface` and
the iterators it hands out). -/
inductive Call where
  | GetState (key : GoString)
  | PutState (key value : GoString)
  | DelState (key : GoString)
  | GetStateByRange (startKey endKey : GoString)
  | GetHistoryForKey (key : GoString)
  | GetQueryResult (query : GoString)
  | Close
deriving DecidableEq, Repr

/-- Type `queryresult.KV`: a key with its value. -/
structure KV where
  Key : GoString
  Value : GoString
deriving DecidableEq, Repr

/-- The value the world state holds for `key`: that of the first entry with
this key. -/
def lookup (key : GoString) : List KV → Option GoString
  | [] => none
  | e :: es => if e.Key = key then some e.Value else lookup key es

/-- The world state after a write: the first entry of `key` is replaced, a new
key is added at the end. -/
def store (key value : GoString) : List KV → List KV
  | [] => [{ Key := key, Value := value }]
  | e :: es =>
    if e.Key = key then { Key := key, Value := value } :: es else e :: store key value es

/-- The world state after a deletion: no entry of `key` is left. -/
def erase (key : GoString) (es : List KV) : List KV :=
  es.filter (fun e => decide (e.Key ≠ key))

/-- Whether `key` lies in the range from `startKey` (included) to `endKey`
(excluded) in the order of bytes; an empty `endKey` is no bound. -/
def inRange (startKey endKey key : GoString) : Bool :=
  decide (startKey ≤ key) && (endKey.isEmpty || decide (key < endKey))

/-- The ledger as one invocation of the chaincode meets it.

* `State` is the world state and `History` the writes made so far, oldest
  first (a deletion is recorded with an empty value).
* `Calls` is the log of the requests the chaincode has issued.
* The other fields are the answers of the peer during this invocation: the
  error text with which a request fails, if it fails, and the result of a
  rich query (the query engine is not modelled). -/
structure Stub where
  State : List KV
  History : List KV
  Calls : List Call
  getErr : GoString → Option GoString
  putErr : GoString → GoString → Option GoString
  delErr : GoString → Option GoString
  rangeErr : GoString → GoString → Option GoString
  historyErr : GoString → Option GoString
  queryResult : GoString → Except GoString (List KV)

/-- Record a request in the log. -/
def Stub.log (stub : Stub) (c : Call) : Stub :=
  { stub with Calls := stub.Calls ++ [c] }

/-- Method `GetState`: an error, or the value of the key (`none`: the nil
slice of a key that is absent). -/
def Stub.GetState (stub : Stub) (key : GoString) :
    Except GoString (Option GoString) × Stub :=
  (match stub.getErr key with
   | some e => Except.error e
   | none => Except.ok (lookup key stub.State),
   stub.log (Call.GetState key))

/-- Method `PutState`: the error, if any; without one the value is written. -/
def Stub.PutState (stub : Stub) (key value : GoString) : Option GoString × Stub :=
  match stub.putErr key value with
  | some e => (some e, stub.log (Call.PutState key value))
  | none =>
    (none, { stub.log (Call.PutState key value) with
               State := store key value stub.State
               History := stub.History ++ [{ Key := key, Value := value }] })

/-- Method `DelState`: the error, if any; without one the key is removed. -/
def Stub.DelState (stub : Stub) (key : GoString) : Option GoString × Stub :=
  match stub.delErr key with
  | some e => (some e, stub.log (Call.DelState key))
  | none =>
    (none, { stub.log (Call.DelState key) with
               State := erase key stub.State
               History := stub.History ++ [{ Key := key, Value := [] }] })

/-- Method `GetStateByRange`: an error, or an iterator over the entries of the
range, given as the list of what `Next` returns while `HasNext` holds. -/
def Stub.GetStateByRange (stub : Stub) (startKey endKey : GoString) :
    Except GoString (List KV) × Stub :=
  (match stub.rangeErr startKey endKey with
   | some e => Except.error e
   | none => Except.ok (stub.State.filter (fun e => inRange startKey endKey e.Key)),
   stub.log (Call.GetStateByRange startKey endKey))

/-- Method `GetHistoryForKey`: an error, or an iterator over the values
written under the key. -/
def Stub.GetHistoryForKey (stub : Stub) (key : GoString) :
    Except GoString (List GoString) × Stub :=
  (match stub.historyErr key with
   | some e => Except.error e
   | none =>
     Except.ok ((stub.History.filter (fun e => decide (e.Key = key))).map (fun e => e.Value)),
   stub.log (Call.GetHistoryForKey key))

/-- Method `GetQueryResult`: an error, or an iterator over the matches. -/
def Stub.GetQueryResult (stub : Stub) (query : GoString) :
    Except GoString (List KV) × Stub :=
  (stub.queryResult query, stub.log (Call.GetQueryResult query))

/-! ## The chaincode -/

/-- Method `HelloWorld.Init`; `args` is the parameter list that
`GetFunctionAndParameters` returns (the arguments of the call after the
function name, which `Init` drops). -/
def Init (stub : Stub) (args : List GoString) : Option (Response × Stub) :=
  if args.length > 0 then
    some (Error 400 (lit "Init: Incorrect number of arguments; no arguments were expected."),
      stub)
  else some (Success 200 (lit "OK") none, stub)

/-- Method `HelloWorld.exist`. -/
def exist (lib : Lib) (stub : Stub) (args : List GoString) : Option (Response × Stub) :=
  match Validate (lit "exist") args [Iface.str (lit "%s"), Iface.int 1, Iface.int 64] with
  | none => none
  | some rc =>
    if rc.Status > 0 then some (rc, stub)
    else
      match args[0]? with
      | none => none
      | some arg0 =>
        match stub.GetState (ToLower lib arg0) with
        | (Except.ok (some _), stub1) => some (Success 204 (lit " Exists") none, stub1)
        | (_, stub1) => some (Error 404 (lit "Not Found"), stub1)

/-- Method `HelloWorld.read`. -/
def read (lib : Lib) (stub : Stub) (args : List GoString) : Option (Response × Stub) :=
  match Validate (lit "read") args [Iface.str (lit "%s"), Iface.int 1, Iface.int 255] with
  | none => none
  | some rc =>
    if rc.Status > 0 then some (rc, stub)
    else
      match args[0]? with
      | none => none
      | some arg0 =>
        match stub.GetState (ToLower lib arg0) with
        | (Except.ok (some value), stub1) => some (Success 200 (lit "OK") (some value), stub1)
        | (_, stub1) => some (Error 404 (lit "Not Found"), stub1)

/-- One round of the loop of `list`: a comma once the buffer holds more than
the 15 bytes, then the object of the key. -/
def listStep (buffer : GoString) (it : KV) : GoString :=
  (if buffer.length > 15 then buffer ++ lit "," else buffer)
    ++ lit "\x7b\"id\":\"" ++ it.Key ++ lit "\"\x7d"

/-- Method `HelloWorld.list`. It takes no argument list. -/
def list (stub : Stub) : Option (Response × Stub) :=
  match stub.GetStateByRange [] [] with
  | (Except.error _, stub1) => some (Error 404 (lit "Not Found"), stub1)
  | (Except.ok resultsIterator, stub1) =>
    some (Success 200 (lit "OK")
            (some (resultsIterator.foldl listStep (lit "\x7b \"values\": [") ++ lit "]\x7d")),
          stub1.log Call.Close)

/-- The four-argument descriptor of `create` and `update`. -/
def docDesc : List Iface :=
  [Iface.str (lit "%s"), Iface.int 1, Iface.int 64, Iface.str (lit "%s"), Iface.int 1,
    Iface.int 255, Iface.str (lit "%s"), Iface.int 1, Iface.int 255, Iface.str (lit "%s"),
    Iface.int 1, Iface.int 255]

/-- Method `HelloWorld.create`. -/
def create (lib : Lib) (stub : Stub) (args : List GoString) : Option (Response × Stub) :=
  match Validate (lit "create") args docDesc with
  | none => none
  | some rc =>
    if rc.Status > 0 then some (rc, stub)
    else
      match args[0]?, args[1]?, args[2]?, args[3]? with
      | some arg0, some arg1, some arg2, some arg3 =>
        match stub.PutState (ToLower lib arg0)
            (Doc.ToJson { DStatus := arg1, Timestamp := arg2, EdgeID := arg3 }) with
        | (some err, stub1) => some (Error 500 err, stub1)
        | (none, stub1) => some (Success 201 (lit "Entry Created") none, stub1)
      | _, _, _, _ => none

/-- Method `HelloWorld.update`. -/
def update (lib : Lib) (stub : Stub) (args : List GoString) : Option (Response × Stub) :=
  match Validate (lit "update") args docDesc with
  | none => none
  | some rc =>
    if rc.Status > 0 then some (rc, stub)
    else
      match args[0]?, args[1]?, args[2]?, args[3]? with
      | some arg0, some arg1, some arg2, some arg3 =>
        match stub.GetState (ToLower lib arg0) with
        | (Except.ok (some _), stub1) =>
          match stub1.PutState (ToLower lib arg0)
              (Doc.ToJson { DStatus := arg1, Timestamp := arg2, EdgeID := arg3 }) with
          | (some err, stub2) => some (Error 500 err, stub2)
          | (none, stub2) => some (Success 204 (lit "Message Updated") none, stub2)
        | (_, stub1) => some (Error 404 (lit "Not Found"), stub1)
      | _, _, _, _ => none

/-- Method `HelloWorld.delete`. -/
def delete (lib : Lib) (stub : Stub) (args : List GoString) : Option (Response × Stub) :=
  match Validate (lit "delete") args [Iface.str (lit "%s"), Iface.int 1, Iface.int 64] with
  | none => none
  | some rc =>
    if rc.Status > 0 then some (rc, stub)
    else
      match args[0]? with
      | none => none
      | some arg0 =>
        match stub.GetState (ToLower lib arg0) with
        | (Except.ok (some _), stub1) =>
          match stub1.DelState (ToLower lib arg0) with
          | (some err, stub2) => some (Error 500 err, stub2)
          | (none, stub2) => some (Success 204 (lit "Message Deleted") none, stub2)
        | (_, stub1) => some (Error 404 (lit "Not Found"), stub1)

/-- One round of the loop of `history`: a comma once the buffer holds more
than 15 bytes, then the three fields, each read after one more `FromJson` of
the value into the `doc` of the round. -/
def historyStep (lib : Lib) (buffer : GoString) (value : GoString) : GoString :=
  let doc1 := Doc.FromJson lib Doc.zero value
  let doc2 := Doc.FromJson lib doc1 value
  let doc3 := Doc.FromJson lib doc2 value
  (if buffer.length > 15 then buffer ++ lit "," else buffer)
    ++ lit "\x7b\"DStatus\":\"" ++ doc1.DStatus
    ++ lit "\", \"Timestamp\":\"" ++ doc2.Timestamp
    ++ lit "\", \"EdgeID\":\"" ++ doc3.EdgeID
    ++ lit "\"\x7d"

/-- Method `HelloWorld.history`. -/
def history (lib : Lib) (stub : Stub) (args : List GoString) : Option (Response × Stub) :=
  match Validate (lit "history") args [Iface.str (lit "%s"), Iface.int 1, Iface.int 64] with
  | none => none
  | some rc =>
    if rc.Status > 0 then some (rc, stub)
    else
      match args[0]? with
      | none => none
      | some arg0 =>
        match stub.GetHistoryForKey (ToLower lib arg0) with
        | (Except.error _, stub1) => some (Error 404 (lit "Not Found"), stub1)
        | (Except.ok resultsIterator, stub1) =>
          some (Success 200 (lit "OK")
                  (some (resultsIterator.foldl (historyStep lib) (lit "\x7b \"values\": [")
                    ++ lit "]\x7d")),
                stub1.log Call.Close)

/-- The query of `search` for a pattern: `fmt.Sprintf` of the template after
the quotes of the pattern are replaced (twice, as in the source). -/
def queryString (pattern : GoString) : GoString :=
  lit "\x7b\"selector\": \x7b\"DStatus\": \x7b\"$regex\": \""
    ++ replaceQuotes (replaceQuotes pattern)
    ++ lit "\"\x7d\x7d, \"fields\": [\"DStatus\"], \"limit\":99\x7d"

/-- One round of the loop of `search`, with the same three `FromJson` calls. -/
def searchStep (lib : Lib) (buffer : GoString) (it : KV) : GoString :=
  let doc1 := Doc.FromJson lib Doc.zero it.Value
  let doc2 := Doc.FromJson lib doc1 it.Value
  let doc3 := Doc.FromJson lib doc2 it.Value
  (if buffer.length > 15 then buffer ++ lit "," else buffer)
    ++ lit "\x7b\"id\":\"" ++ it.Key
    ++ lit "\", \"DStatus\":\"" ++ doc1.DStatus
    ++ lit "\", \"Timestamp\":\"" ++ doc2.Timestamp
    ++ lit "\", \"EdgeID\":\"" ++ doc3.EdgeID
    ++ lit "\"\x7d"

/-- Method `HelloWorld.search`. -/
def search (lib : Lib) (stub : Stub) (args : List GoString) : Option (Response × Stub) :=
  match Validate (lit "search") args [Iface.str (lit "%s"), Iface.int 1, Iface.int 64] with
  | none => none
  | some rc =>
    if rc.Status > 0 then some (rc, stub)
    else
      match args[0]? with
      | none => none
      | some arg0 =>
        match stub.GetQueryResult (queryString arg0) with
        | (Except.error err, stub1) => some (Error 500 err, stub1)
        | (Except.ok resultsIterator, stub1) =>
          some (Success 200 (lit "OK")
                  (some (resultsIterator.foldl (searchStep lib) (lit "\x7b \"values\": [")
                    ++ lit "]\x7d")),
                stub1.log Call.Close)

/-- Method `HelloWorld.Invoke`; `function` and `args` are what
`GetFunctionAndParameters` returns. -/
def Invoke (lib : Lib) (stub : Stub) (function : GoString) (args : List GoString) :
    Option (Response × Stub) :=
  if function = lit "exist" then exist lib stub args
  else if function = lit "read" then read lib stub args
  else if function = lit "list" then list stub
  else if function = lit "create" then create lib stub args
  else if function = lit "update" then update lib stub args
  else if function = lit "delete" then delete lib stub args
  else if function = lit "history" then history lib stub args
  else if function = lit "search" then search lib stub args
  else
    some (Error 501
      (lit "Invalid method! Valid methods are 'create|update|delete|exist|read|list|history|search'!"),
      stub)

/-! ## Notions the properties are stated with -/

/-- The variadic `desc` a caller passes for the triples `ts` of kind, minimal
and maximal length. -/
def descOf (ts : List (Iface × Int × Int)) : List Iface :=
  ts.flatMap (fun t => [t.1, Iface.int t.2.1, Iface.int t.2.2])

/-- Every argument has a length within the bounds of the triple at its
position. -/
def withinBounds (args : List GoString) (ts : List (Iface × Int × Int)) : Prop :=
  ∀ (j : Nat) (a : GoString) (t : Iface × Int × Int), args[j]? = some a → ts[j]? = some t →
    t.2.1 ≤ (a.length : Int) ∧ (a.length : Int) ≤ t.2.2

/-- The declared shape of a verb with one argument: exactly one string, of
length 1 to `bound`. -/
def shape1 (bound : Nat) (args : List GoString) : Prop :=
  ∃ a, args = [a] ∧ 1 ≤ a.length ∧ a.length ≤ bound

/-- The declared shape of `create` and `update`: an id of length 1 to 64, then
three strings of length 1 to 255. -/
def shape4 (args : List GoString) : Prop :=
  ∃ id s t e, args = [id, s, t, e] ∧ (1 ≤ id.length ∧ id.length ≤ 64)
    ∧ (1 ≤ s.length ∧ s.length ≤ 255) ∧ (1 ≤ t.length ∧ t.length ≤ 255)
    ∧ (1 ≤ e.length ∧ e.length ≤ 255)

/-- Case tables that know the ASCII letters only: no rune above U+007F has a
lower-case form of its own, and a key matches a field name only exactly. -/
def plainLib : Lib :=
  { unicodeToLower := fun r => r, equalFold := fun a b => decide (a = b) }

/-- Case tables with one entry above ASCII, as Unicode has it: the lower-case
form of U+212A KELVIN SIGN is the letter `k`. -/
def kelvinLib : Lib :=
  { unicodeToLower := fun r => if r = 0x212A then 0x6B else r
    equalFold := fun a b => decide (a = b) }

/-- An empty ledger whose peer answers every request. -/
def emptyStub : Stub :=
  { State := [], History := [], Calls := []
    getErr := fun _ => none, putErr := fun _ _ => none, delErr := fun _ => none
    rangeErr := fun _ _ => none, historyErr := fun _ => none
    queryResult := fun _ => Except.ok [] }

/-- The same ledger met by an invocation whose `GetState` requests fail. -/
def Stub.getFailing (stub : Stub) : Stub :=
  { stub with getErr := fun _ => some (lit "ledger unavailable") }

/-- A ledger that holds one record under the key "id001", met by a peer that
answers every request. -/
def oneRecordStub : Stub :=
  { emptyStub with
    State := [{ Key := lit "id001",
                Value := Doc.ToJson { DStatus := lit "A", Timestamp := lit "t1",
                                      EdgeID := lit "e1" } }]
    History := [{ Key := lit "id001",
                  Value := Doc.ToJson { DStatus := lit "A", Timestamp := lit "t1",
                                        EdgeID := lit "e1" } }] }

/-- The sign U+212A KELVIN SIGN (bytes E2 84 AA) written 22 times: an id of 66
bytes. -/
def kelvinId : GoString :=
  (List.replicate 22 [byte 0xE2, byte 0x84, byte 0xAA]).flatten

/-- The letter `k` written 22 times: an id of 22 bytes. -/
def smallKId : GoString := List.replicate 22 (byte 0x6B)

/-- The eight verbs `Invoke` routes. -/
def verbs : List GoString :=
  [lit "exist", lit "read", lit "list", lit "create", lit "update", lit "delete", lit "history",
    lit "search"]

/-- The same ledger met by an invocation whose range scan cannot start. -/
def Stub.rangeFailing (stub : Stub) : Stub :=
  { stub with rangeErr := fun _ _ => some (lit "ledger unavailable") }

/-- The object `list` writes for one entry of the scan. -/
def idObject (it : KV) : GoString :=
  lit "\x7b\"id\":\"" ++ it.Key ++ lit "\"\x7d"

/-- A ledger that holds the keys "id001" and "id003", met by a peer that
answers every request. -/
def twoKeyStub : Stub :=
  { emptyStub with
    State := [{ Key := lit "id001", Value := [] }, { Key := lit "id003", Value := [] }] }

/-- The letter `a` written 100 times: an id of 100 bytes, within the bounds of
`read` and beyond those of the other verbs. -/
def longId : GoString := List.replicate 100 (byte 0x61)

/-! ## Properties: validation -/

theorem descOf_length (ts : List (Iface × Int × Int)) : (descOf ts).length = 3 * ts.length := by
  induction ts with
  | nil => rfl
  | cons t ts ih => simp [descOf, List.flatMap_cons] at ih ⊢; omega

theorem descOf_get (ts : List (Iface × Int × Int)) (i : Nat) (t : Iface × Int × Int)
    (h : ts[i]? = some t) :
    (descOf ts)[i * 3]? = some t.1 ∧ (descOf ts)[i * 3 + 1]? = some (Iface.int t.2.1)
      ∧ (descOf ts)[i * 3 + 2]? = some (Iface.int t.2.2) := by
  induction ts generalizing i with
  | nil => simp at h
  | cons u ts ih =>
    cases i with
    | zero =>
      simp at h; subst h
      simp [descOf, List.flatMap_cons]
    | succ i =>
      simp at h
      have := ih i h
      have e : (i + 1) * 3 = i * 3 + 3 := by ring
      simp only [descOf, List.flatMap_cons, e] at this ⊢
      simpa using this

theorem Validate_mismatch (name : GoString) (args : List GoString) (desc : List Iface)
    (h : args.length ≠ desc.length / 3) :
    Validate name args desc = some (Error 400 (lit "Parameter Mismatch")) := by
  simp [Validate, h]

theorem validateLoop_step (args : List GoString) (ts : List (Iface × Int × Int))
    (hk : ∀ t ∈ ts, t.1 = Iface.str (lit "%s")) (todo i : Nat) (a : GoString)
    (t : Iface × Int × Int) (ha : args[i]? = some a) (ht : ts[i]? = some t) :
    validateLoop args (descOf ts) (todo + 1) i
      = if (a.length : Int) < t.2.1 ∨ (a.length : Int) > t.2.2 then
          some (Error 400 (lit "Parameter Length Error"))
        else validateLoop args (descOf ts) todo (i + 1) := by
  obtain ⟨h0, h1, h2⟩ := descOf_get ts i t ht
  have hkind : t.1 = Iface.str (lit "%s") := hk t (by obtain ⟨h, e⟩ := List.getElem?_eq_some_iff.mp ht; exact e ▸ List.getElem_mem h)
  rw [validateLoop, h0, h1, h2, ha]
  simp [hkind]

theorem validateLoop_ok (args : List GoString) (ts : List (Iface × Int × Int))
    (hk : ∀ t ∈ ts, t.1 = Iface.str (lit "%s")) (hlen : args.length = ts.length) :
    ∀ todo i, i + todo = ts.length →
      (∀ j a t, i ≤ j → args[j]? = some a → ts[j]? = some t →
        t.2.1 ≤ (a.length : Int) ∧ (a.length : Int) ≤ t.2.2) →
      validateLoop args (descOf ts) todo i = some (Success 0 (lit "OK") none) := by
  intro todo
  induction todo with
  | zero => intro i _ _; rfl
  | succ todo ih =>
    intro i hi hb
    have hit : i < ts.length := by omega
    have hia : i < args.length := by omega
    have ha : args[i]? = some args[i] := List.getElem?_eq_getElem hia
    have ht : ts[i]? = some ts[i] := List.getElem?_eq_getElem hit
    rw [validateLoop_step args ts hk todo i _ _ ha ht]
    have := hb i _ _ (le_refl i) ha ht
    rw [if_neg (by omega)]
    exact ih (i + 1) (by omega) (fun j a t hj => hb j a t (by omega))

theorem validateLoop_bad (args : List GoString) (ts : List (Iface × Int × Int))
    (hk : ∀ t ∈ ts, t.1 = Iface.str (lit "%s")) (hlen : args.length = ts.length) :
    ∀ todo i, i + todo = ts.length →
      (∃ j a t, i ≤ j ∧ args[j]? = some a ∧ ts[j]? = some t ∧
        ¬ (t.2.1 ≤ (a.length : Int) ∧ (a.length : Int) ≤ t.2.2)) →
      validateLoop args (descOf ts) todo i = some (Error 400 (lit "Parameter Length Error")) := by
  intro todo
  induction todo with
  | zero =>
    intro i hi ⟨j, a, t, hj, _, ht, _⟩
    have : j < ts.length := (List.getElem?_eq_some_iff.mp ht).1
    omega
  | succ todo ih =>
    intro i hi ⟨j, a, t, hj, haj, htj, hbad⟩
    have hit : i < ts.length := by omega
    have hia : i < args.length := by omega
    have ha : args[i]? = some args[i] := List.getElem?_eq_getElem hia
    have ht : ts[i]? = some ts[i] := List.getElem?_eq_getElem hit
    rw [validateLoop_step args ts hk todo i _ _ ha ht]
    by_cases hb : ((args[i].length : Int) < ts[i].2.1 ∨ (args[i].length : Int) > ts[i].2.2)
    · rw [if_pos hb]
    · rw [if_neg hb]
      apply ih (i + 1) (by omega)
      refine ⟨j, a, t, ?_, haj, htj, hbad⟩
      rcases Nat.eq_or_lt_of_le hj with h | h
      · subst h
        rw [ha] at haj; rw [ht] at htj
        cases haj; cases htj
        exact absurd (by omega) hb
      · omega

theorem Validate_descOf (name : GoString) (args : List GoString)
    (ts : List (Iface × Int × Int)) (hk : ∀ t ∈ ts, t.1 = Iface.str (lit "%s")) :
    (args.length = ts.length ∧ withinBounds args ts
        ∧ Validate name args (descOf ts) = some (Success 0 (lit "OK") none))
    ∨ (¬ (args.length = ts.length ∧ withinBounds args ts)
        ∧ ∃ msg, Validate name args (descOf ts) = some (Error 400 msg)) := by
  by_cases hlen : args.length = ts.length
  · have hn : (descOf ts).length / 3 = ts.length := by rw [descOf_length]; omega
    have hV : Validate name args (descOf ts) = validateLoop args (descOf ts) ts.length 0 := by
      simp [Validate, hn, hlen]
    by_cases hb : withinBounds args ts
    · left
      refine ⟨hlen, hb, ?_⟩
      rw [hV]
      exact validateLoop_ok args ts hk hlen ts.length 0 (by omega) (fun j a t _ => hb j a t)
    · right
      refine ⟨fun h => hb h.2, lit "Parameter Length Error", ?_⟩
      rw [hV]
      apply validateLoop_bad args ts hk hlen ts.length 0 (by omega)
      simp only [withinBounds, not_forall] at hb
      obtain ⟨j, a, t, ha, ht, hbad⟩ := hb
      exact ⟨j, a, t, Nat.zero_le j, ha, ht, hbad⟩
  · right
    refine ⟨fun h => hlen h.1, lit "Parameter Mismatch", ?_⟩
    apply Validate_mismatch
    rw [descOf_length]; omega

theorem shape1_iff (bound : Nat) (args : List GoString) :
    shape1 bound args ↔
      (args.length = [(Iface.str (lit "%s"), (1 : Int), (bound : Int))].length
        ∧ withinBounds args [(Iface.str (lit "%s"), (1 : Int), (bound : Int))]) := by
  constructor
  · rintro ⟨a, rfl, h1, h2⟩
    refine ⟨rfl, ?_⟩
    unfold withinBounds
    intro j b t hb ht
    cases j with
    | zero => simp at hb ht; subst hb; subst ht; simp; omega
    | succ j => simp at hb
  · rintro ⟨hl, hb⟩
    match args, hl with
    | [a], _ =>
      have := hb 0 a _ rfl rfl
      simp at this
      exact ⟨a, rfl, by omega, by omega⟩

theorem Validate_one (name : GoString) (bound : Nat) (args : List GoString) :
    (shape1 bound args ∧
      Validate name args [Iface.str (lit "%s"), Iface.int 1, Iface.int bound]
        = some (Success 0 (lit "OK") none))
    ∨ (¬ shape1 bound args ∧ ∃ msg,
      Validate name args [Iface.str (lit "%s"), Iface.int 1, Iface.int bound]
        = some (Error 400 msg)) := by
  have h := Validate_descOf name args [(Iface.str (lit "%s"), (1 : Int), (bound : Int))]
    (by simp)
  rcases h with ⟨h1, hb, h2⟩ | ⟨h1, h2⟩
  · exact Or.inl ⟨(shape1_iff bound args).mpr ⟨h1, hb⟩, h2⟩
  · exact Or.inr ⟨fun hs => h1 ((shape1_iff bound args).mp hs), h2⟩

theorem shape4_iff (args : List GoString) :
    shape4 args ↔
      (args.length = [(Iface.str (lit "%s"), (1 : Int), (64 : Int)),
          (Iface.str (lit "%s"), (1 : Int), (255 : Int)),
          (Iface.str (lit "%s"), (1 : Int), (255 : Int)),
          (Iface.str (lit "%s"), (1 : Int), (255 : Int))].length
        ∧ withinBounds args [(Iface.str (lit "%s"), (1 : Int), (64 : Int)),
          (Iface.str (lit "%s"), (1 : Int), (255 : Int)),
          (Iface.str (lit "%s"), (1 : Int), (255 : Int)),
          (Iface.str (lit "%s"), (1 : Int), (255 : Int))]) := by
  constructor
  · rintro ⟨id, s, t, e, rfl, h1, h2, h3, h4⟩
    refine ⟨rfl, ?_⟩
    unfold withinBounds
    intro j b u hb hu
    match j with
    | 0 => simp at hb hu; subst hb; subst hu; simp; omega
    | 1 => simp at hb hu; subst hb; subst hu; simp; omega
    | 2 => simp at hb hu; subst hb; subst hu; simp; omega
    | 3 => simp at hb hu; subst hb; subst hu; simp; omega
    | j + 4 => simp at hb
  · rintro ⟨hl, hb⟩
    match args, hl with
    | [id, s, t, e], _ =>
      have h0 := hb 0 id _ rfl rfl
      have h1 := hb 1 s _ rfl rfl
      have h2 := hb 2 t _ rfl rfl
      have h3 := hb 3 e _ rfl rfl
      simp at h0 h1 h2 h3
      exact ⟨id, s, t, e, rfl, by omega, by omega, by omega, by omega⟩

theorem Validate_four (name : GoString) (args : List GoString) :
    (shape4 args ∧ Validate name args docDesc = some (Success 0 (lit "OK") none))
    ∨ (¬ shape4 args ∧ ∃ msg, Validate name args docDesc = some (Error 400 msg)) := by
  have h := Validate_descOf name args [(Iface.str (lit "%s"), (1 : Int), (64 : Int)),
          (Iface.str (lit "%s"), (1 : Int), (255 : Int)),
          (Iface.str (lit "%s"), (1 : Int), (255 : Int)),
          (Iface.str (lit "%s"), (1 : Int), (255 : Int))] (by simp)
  rcases h with ⟨h1, hb, h2⟩ | ⟨h1, h2⟩
  · exact Or.inl ⟨(shape4_iff args).mpr ⟨h1, hb⟩, h2⟩
  · exact Or.inr ⟨fun hs => h1 ((shape4_iff args).mp hs), h2⟩

theorem exist_invalid (lib : Lib) (stub : Stub) (args : List GoString) (h : ¬ shape1 64 args) :
    ∃ msg, exist lib stub args = some (Error 400 msg, stub) := by
  rcases Validate_one (lit "exist") 64 args with ⟨hs, _⟩ | ⟨_, msg, hv⟩
  · exact absurd hs h
  · exact ⟨msg, by simp [exist] at hv ⊢; simp [hv, Error]⟩

theorem exist_valid (lib : Lib) (stub : Stub) (a : GoString) (h : shape1 64 [a]) :
    exist lib stub [a] =
      some (match stub.getErr (ToLower lib a), lookup (ToLower lib a) stub.State with
            | none, some _ => Success 204 (lit " Exists") none
            | _, _ => Error 404 (lit "Not Found"),
            stub.log (Call.GetState (ToLower lib a))) := by
  rcases Validate_one (lit "exist") 64 [a] with ⟨_, hv⟩ | ⟨hs, _⟩
  · simp at hv
    simp [exist, hv, Success, Stub.GetState]
    cases stub.getErr (ToLower lib a) <;> cases lookup (ToLower lib a) stub.State <;> simp
  · exact absurd h hs

/-! ## Properties: the handlers on valid and invalid arguments -/

theorem read_invalid (lib : Lib) (stub : Stub) (args : List GoString) (h : ¬ shape1 255 args) :
    ∃ msg, read lib stub args = some (Error 400 msg, stub) := by
  rcases Validate_one (lit "read") 255 args with ⟨hs, _⟩ | ⟨_, msg, hv⟩
  · exact absurd hs h
  · exact ⟨msg, by simp [read] at hv ⊢; simp [hv, Error]⟩

theorem read_valid (lib : Lib) (stub : Stub) (a : GoString) (h : shape1 255 [a]) :
    read lib stub [a] =
      some (match stub.getErr (ToLower lib a), lookup (ToLower lib a) stub.State with
            | none, some value => Success 200 (lit "OK") (some value)
            | _, _ => Error 404 (lit "Not Found"),
            stub.log (Call.GetState (ToLower lib a))) := by
  rcases Validate_one (lit "read") 255 [a] with ⟨_, hv⟩ | ⟨hs, _⟩
  · simp at hv
    simp [read, hv, Success, Stub.GetState]
    cases stub.getErr (ToLower lib a) <;> cases lookup (ToLower lib a) stub.State <;> simp
  · exact absurd h hs

theorem delete_invalid (lib : Lib) (stub : Stub) (args : List GoString) (h : ¬ shape1 64 args) :
    ∃ msg, delete lib stub args = some (Error 400 msg, stub) := by
  rcases Validate_one (lit "delete") 64 args with ⟨hs, _⟩ | ⟨_, msg, hv⟩
  · exact absurd hs h
  · exact ⟨msg, by simp [delete] at hv ⊢; simp [hv, Error]⟩

theorem delete_valid (lib : Lib) (stub : Stub) (a : GoString) (h : shape1 64 [a]) :
    delete lib stub [a] =
      some (match stub.getErr (ToLower lib a), lookup (ToLower lib a) stub.State with
            | none, some _ =>
              (match stub.delErr (ToLower lib a) with
               | some err => Error 500 err
               | none => Success 204 (lit "Message Deleted") none,
               ((stub.log (Call.GetState (ToLower lib a))).DelState (ToLower lib a)).2)
            | _, _ => (Error 404 (lit "Not Found"), stub.log (Call.GetState (ToLower lib a)))) := by
  rcases Validate_one (lit "delete") 64 [a] with ⟨_, hv⟩ | ⟨hs, _⟩
  · simp at hv
    simp [delete, hv, Success, Stub.GetState]
    cases hg : stub.getErr (ToLower lib a) <;> cases hl : lookup (ToLower lib a) stub.State <;>
      simp [Stub.DelState, Stub.log]
    cases stub.delErr (ToLower lib a) <;> simp
  · exact absurd h hs

theorem history_invalid (lib : Lib) (stub : Stub) (args : List GoString) (h : ¬ shape1 64 args) :
    ∃ msg, history lib stub args = some (Error 400 msg, stub) := by
  rcases Validate_one (lit "history") 64 args with ⟨hs, _⟩ | ⟨_, msg, hv⟩
  · exact absurd hs h
  · exact ⟨msg, by simp [history] at hv ⊢; simp [hv, Error]⟩

theorem history_valid (lib : Lib) (stub : Stub) (a : GoString) (h : shape1 64 [a]) :
    history lib stub [a] =
      some (match (stub.GetHistoryForKey (ToLower lib a)).1 with
            | Except.error _ =>
              (Error 404 (lit "Not Found"), stub.log (Call.GetHistoryForKey (ToLower lib a)))
            | Except.ok resultsIterator =>
              (Success 200 (lit "OK")
                (some (resultsIterator.foldl (historyStep lib) (lit "\x7b \"values\": [")
                    ++ lit "]\x7d")),
               (stub.log (Call.GetHistoryForKey (ToLower lib a))).log Call.Close)) := by
  rcases Validate_one (lit "history") 64 [a] with ⟨_, hv⟩ | ⟨hs, _⟩
  · simp at hv
    simp [history, hv, Success, Stub.GetHistoryForKey]
    cases stub.historyErr (ToLower lib a) <;> simp
  · exact absurd h hs

theorem search_invalid (lib : Lib) (stub : Stub) (args : List GoString) (h : ¬ shape1 64 args) :
    ∃ msg, search lib stub args = some (Error 400 msg, stub) := by
  rcases Validate_one (lit "search") 64 args with ⟨hs, _⟩ | ⟨_, msg, hv⟩
  · exact absurd hs h
  · exact ⟨msg, by simp [search] at hv ⊢; simp [hv, Error]⟩

theorem create_invalid (lib : Lib) (stub : Stub) (args : List GoString) (h : ¬ shape4 args) :
    ∃ msg, create lib stub args = some (Error 400 msg, stub) := by
  rcases Validate_four (lit "create") args with ⟨hs, _⟩ | ⟨_, msg, hv⟩
  · exact absurd hs h
  · exact ⟨msg, by simp [create, hv, Error]⟩

theorem create_valid (lib : Lib) (stub : Stub) (id s t e : GoString)
    (h : shape4 [id, s, t, e]) :
    create lib stub [id, s, t, e] =
      some (match stub.putErr (ToLower lib id)
                (Doc.ToJson { DStatus := s, Timestamp := t, EdgeID := e }) with
            | some err => Error 500 err
            | none => Success 201 (lit "Entry Created") none,
            (stub.PutState (ToLower lib id)
                (Doc.ToJson { DStatus := s, Timestamp := t, EdgeID := e })).2) := by
  rcases Validate_four (lit "create") [id, s, t, e] with ⟨_, hv⟩ | ⟨hs, _⟩
  · simp [create, hv, Success, Stub.PutState]
    cases stub.putErr (ToLower lib id) (Doc.ToJson { DStatus := s, Timestamp := t, EdgeID := e })
      <;> simp
  · exact absurd h hs

theorem update_invalid (lib : Lib) (stub : Stub) (args : List GoString) (h : ¬ shape4 args) :
    ∃ msg, update lib stub args = some (Error 400 msg, stub) := by
  rcases Validate_four (lit "update") args with ⟨hs, _⟩ | ⟨_, msg, hv⟩
  · exact absurd hs h
  · exact ⟨msg, by simp [update, hv, Error]⟩

theorem update_valid (lib : Lib) (stub : Stub) (id s t e : GoString)
    (h : shape4 [id, s, t, e]) :
    update lib stub [id, s, t, e] =
      some (match stub.getErr (ToLower lib id), lookup (ToLower lib id) stub.State with
            | none, some _ =>
              (match stub.putErr (ToLower lib id)
                  (Doc.ToJson { DStatus := s, Timestamp := t, EdgeID := e }) with
               | some err => Error 500 err
               | none => Success 204 (lit "Message Updated") none,
               ((stub.log (Call.GetState (ToLower lib id))).PutState (ToLower lib id)
                  (Doc.ToJson { DStatus := s, Timestamp := t, EdgeID := e })).2)
            | _, _ =>
              (Error 404 (lit "Not Found"), stub.log (Call.GetState (ToLower lib id)))) := by
  rcases Validate_four (lit "update") [id, s, t, e] with ⟨_, hv⟩ | ⟨hs, _⟩
  · simp [update, hv, Success, Stub.GetState]
    cases hg : stub.getErr (ToLower lib id) <;> cases hl : lookup (ToLower lib id) stub.State <;>
      simp [Stub.PutState, Stub.log]
    cases stub.putErr (ToLower lib id) (Doc.ToJson { DStatus := s, Timestamp := t, EdgeID := e })
      <;> simp
  · exact absurd h hs

/-! ## Properties: the world state and the dispatcher -/

theorem lookup_store_same (key value : GoString) (es : List KV) :
    lookup key (store key value es) = some value := by
  induction es with
  | nil => simp [store, lookup]
  | cons e es ih =>
    by_cases h : e.Key = key
    · simp [store, lookup, h]
    · simp [store, lookup, h, ih]

theorem lookup_store_other (key key2 value : GoString) (es : List KV) (h : key2 ≠ key) :
    lookup key2 (store key value es) = lookup key2 es := by
  induction es with
  | nil => simp [store, lookup, Ne.symm h]
  | cons e es ih =>
    by_cases h1 : e.Key = key
    · have : e.Key ≠ key2 := by rw [h1]; exact Ne.symm h
      simp [store, lookup, h1, Ne.symm h, this]
    · by_cases h2 : e.Key = key2
      · rw [store, if_neg h1, lookup, if_pos h2, lookup, if_pos h2]
      · rw [store, if_neg h1, lookup, if_neg h2, lookup, if_neg h2, ih]

theorem erase_cons (key : GoString) (e : KV) (es : List KV) :
    erase key (e :: es) = if e.Key = key then erase key es else e :: erase key es := by
  by_cases h : e.Key = key <;> simp [erase, List.filter_cons, h]

theorem lookup_erase_same (key : GoString) (es : List KV) :
    lookup key (erase key es) = none := by
  induction es with
  | nil => rfl
  | cons e es ih =>
    rw [erase_cons]
    by_cases h : e.Key = key
    · rw [if_pos h, ih]
    · rw [if_neg h, lookup, if_neg h, ih]

theorem lookup_erase_other (key key2 : GoString) (es : List KV) (h : key2 ≠ key) :
    lookup key2 (erase key es) = lookup key2 es := by
  induction es with
  | nil => rfl
  | cons e es ih =>
    rw [erase_cons]
    by_cases h1 : e.Key = key
    · have : e.Key ≠ key2 := by rw [h1]; exact Ne.symm h
      rw [if_pos h1, ih, lookup, if_neg this]
    · rw [if_neg h1]
      by_cases h2 : e.Key = key2
      · rw [lookup, if_pos h2, lookup, if_pos h2]
      · rw [lookup, if_neg h2, lookup, if_neg h2, ih]

theorem Invoke_exist (lib : Lib) (stub : Stub) (args : List GoString) :
    Invoke lib stub (lit "exist") args = exist lib stub args := rfl

theorem Invoke_read (lib : Lib) (stub : Stub) (args : List GoString) :
    Invoke lib stub (lit "read") args = read lib stub args := rfl

theorem Invoke_list (lib : Lib) (stub : Stub) (args : List GoString) :
    Invoke lib stub (lit "list") args = list stub := rfl

theorem Invoke_create (lib : Lib) (stub : Stub) (args : List GoString) :
    Invoke lib stub (lit "create") args = create lib stub args := rfl

theorem Invoke_update (lib : Lib) (stub : Stub) (args : List GoString) :
    Invoke lib stub (lit "update") args = update lib stub args := rfl

theorem Invoke_delete (lib : Lib) (stub : Stub) (args : List GoString) :
    Invoke lib stub (lit "delete") args = delete lib stub args := rfl

theorem Invoke_history (lib : Lib) (stub : Stub) (args : List GoString) :
    Invoke lib stub (lit "history") args = history lib stub args := rfl

theorem Invoke_search (lib : Lib) (stub : Stub) (args : List GoString) :
    Invoke lib stub (lit "search") args = search lib stub args := rfl

/-! ## Claims C1 to C3: validation -/

/-- C1 (counterexample). `list` takes no argument list and never validates:
called with one argument it scans the ledger and returns 200. -/
theorem C1_list_ignores_arguments :
    (Invoke plainLib emptyStub (lit "list") [lit "x"]).map (fun p => (p.1, p.2.Calls))
      = some (Success 200 (lit "OK") (some (lit "\x7b \"values\": []\x7d")),
              [Call.GetStateByRange [] [], Call.Close]) := by
  decide

/-- C1 (amended). For each of the seven verbs that take arguments, an argument
list that violates the declared shape makes `Invoke` return status 400 and hand
back the stub as it was: no request was issued and the ledger is unchanged. -/
theorem C1_invalid_arguments_rejected (lib : Lib) (stub : Stub) (function : GoString)
    (args : List GoString)
    (h : ((function = lit "exist" ∨ function = lit "delete" ∨ function = lit "history"
            ∨ function = lit "search") ∧ ¬ shape1 64 args)
         ∨ (function = lit "read" ∧ ¬ shape1 255 args)
         ∨ ((function = lit "create" ∨ function = lit "update") ∧ ¬ shape4 args)) :
    ∃ r, Invoke lib stub function args = some (r, stub) ∧ r.Status = 400 := by
  rcases h with ⟨rfl | rfl | rfl | rfl, hs⟩ | ⟨rfl, hs⟩ | ⟨rfl | rfl, hs⟩
  · obtain ⟨msg, e⟩ := exist_invalid lib stub args hs
    exact ⟨_, by rw [Invoke_exist, e], rfl⟩
  · obtain ⟨msg, e⟩ := delete_invalid lib stub args hs
    exact ⟨_, by rw [Invoke_delete, e], rfl⟩
  · obtain ⟨msg, e⟩ := history_invalid lib stub args hs
    exact ⟨_, by rw [Invoke_history, e], rfl⟩
  · obtain ⟨msg, e⟩ := search_invalid lib stub args hs
    exact ⟨_, by rw [Invoke_search, e], rfl⟩
  · obtain ⟨msg, e⟩ := read_invalid lib stub args hs
    exact ⟨_, by rw [Invoke_read, e], rfl⟩
  · obtain ⟨msg, e⟩ := create_invalid lib stub args hs
    exact ⟨_, by rw [Invoke_create, e], rfl⟩
  · obtain ⟨msg, e⟩ := update_invalid lib stub args hs
    exact ⟨_, by rw [Invoke_update, e], rfl⟩

/-- C1 (witness). `exist` without an argument. -/
theorem C1_invalid_arguments_rejected_witness :
    ∃ r, Invoke plainLib emptyStub (lit "exist") [] = some (r, emptyStub) ∧ r.Status = 400 :=
  C1_invalid_arguments_rejected plainLib emptyStub (lit "exist") []
    (Or.inl ⟨Or.inl rfl, by simp [shape1]⟩)

/-- C2. When the number of arguments differs from the number of triples of
the descriptor, `Validate` returns status 400 with message "Parameter Mismatch",
whatever the arguments and the triples are. -/
theorem C2_arity_mismatch (name : GoString) (args : List GoString)
    (ts : List (Iface × Int × Int)) (h : args.length ≠ ts.length) :
    Validate name args (descOf ts)
      = some { Status := 400, Message := lit "Parameter Mismatch", Payload := none } := by
  apply Validate_mismatch
  rw [descOf_length]; omega

/-- C2 (witness). Two arguments against a descriptor of one triple. -/
theorem C2_arity_mismatch_witness :
    Validate (lit "exist") [lit "ID001", lit "Hello World"]
        (descOf [(Iface.str (lit "%s"), 1, 64)])
      = some { Status := 400, Message := lit "Parameter Mismatch", Payload := none } :=
  C2_arity_mismatch (lit "exist") [lit "ID001", lit "Hello World"]
    [(Iface.str (lit "%s"), 1, 64)] (by decide)

/-- C3. For as many arguments as triples, all of kind "%s": `Validate` returns
the OK marker (status 0, message "OK", no payload) exactly when every argument
has a length within the bounds of its triple, both included, and status 400
with message "Parameter Length Error" otherwise. -/
theorem C3_length_bounds (name : GoString) (args : List GoString)
    (ts : List (Iface × Int × Int)) (hk : ∀ t ∈ ts, t.1 = Iface.str (lit "%s"))
    (hlen : args.length = ts.length) :
    (Validate name args (descOf ts)
        = some { Status := 0, Message := lit "OK", Payload := none }
      ↔ withinBounds args ts)
    ∧ (¬ withinBounds args ts →
        Validate name args (descOf ts)
          = some { Status := 400, Message := lit "Parameter Length Error", Payload := none }) := by
  have hn : (descOf ts).length / 3 = ts.length := by rw [descOf_length]; omega
  have hV : Validate name args (descOf ts) = validateLoop args (descOf ts) ts.length 0 := by
    simp [Validate, hn, hlen]
  have hbad : ¬ withinBounds args ts →
      Validate name args (descOf ts) = some (Error 400 (lit "Parameter Length Error")) := by
    intro hb
    rw [hV]
    apply validateLoop_bad args ts hk hlen ts.length 0 (by omega)
    simp only [withinBounds, not_forall] at hb
    obtain ⟨j, a, t, ha, ht, hb⟩ := hb
    exact ⟨j, a, t, Nat.zero_le j, ha, ht, hb⟩
  refine ⟨⟨fun h => ?_, fun hb => ?_⟩, hbad⟩
  · by_contra hb
    rw [hbad hb] at h
    simp [Error] at h
  · rw [hV]
    exact validateLoop_ok args ts hk hlen ts.length 0 (by omega) (fun j a t _ => hb j a t)

/-- C3 (witness). An empty id against the bounds 1 to 64. -/
theorem C3_length_bounds_witness :
    (Validate (lit "exist") [[]] (descOf [(Iface.str (lit "%s"), 1, 64)])
        = some { Status := 0, Message := lit "OK", Payload := none }
      ↔ withinBounds [[]] [(Iface.str (lit "%s"), 1, 64)])
    ∧ (¬ withinBounds [[]] [(Iface.str (lit "%s"), 1, 64)] →
        Validate (lit "exist") [[]] (descOf [(Iface.str (lit "%s"), 1, 64)])
          = some { Status := 400, Message := lit "Parameter Length Error", Payload := none }) :=
  C3_length_bounds (lit "exist") [[]] [(Iface.str (lit "%s"), 1, 64)] (by simp) rfl

/-! ## Claims C6 and C8 -/

/-- C6. When the lower-cased id is not a key of the ledger, `exist`, `read`,
`update` and `delete`, each called with arguments that pass its validation,
return status 404. -/
theorem C6_absent_id_not_found (lib : Lib) (stub : Stub) (id s t e : GoString)
    (habs : lookup (ToLower lib id) stub.State = none) :
    (shape1 64 [id] → ∃ r s1, exist lib stub [id] = some (r, s1) ∧ r.Status = 404)
    ∧ (shape1 255 [id] → ∃ r s1, read lib stub [id] = some (r, s1) ∧ r.Status = 404)
    ∧ (shape4 [id, s, t, e] →
        ∃ r s1, update lib stub [id, s, t, e] = some (r, s1) ∧ r.Status = 404)
    ∧ (shape1 64 [id] → ∃ r s1, delete lib stub [id] = some (r, s1) ∧ r.Status = 404) := by
  refine ⟨fun h => ?_, fun h => ?_, fun h => ?_, fun h => ?_⟩
  · rw [exist_valid lib stub id h, habs]
    cases stub.getErr (ToLower lib id) <;> exact ⟨_, _, rfl, rfl⟩
  · rw [read_valid lib stub id h, habs]
    cases stub.getErr (ToLower lib id) <;> exact ⟨_, _, rfl, rfl⟩
  · rw [update_valid lib stub id s t e h, habs]
    cases stub.getErr (ToLower lib id) <;> exact ⟨_, _, rfl, rfl⟩
  · rw [delete_valid lib stub id h, habs]
    cases stub.getErr (ToLower lib id) <;> exact ⟨_, _, rfl, rfl⟩

/-- C6 (witness). The id "ID001" on the empty ledger. -/
theorem C6_absent_id_not_found_witness :
    (shape1 64 [lit "ID001"] →
      ∃ r s1, exist plainLib emptyStub [lit "ID001"] = some (r, s1) ∧ r.Status = 404)
    ∧ (shape1 255 [lit "ID001"] →
      ∃ r s1, read plainLib emptyStub [lit "ID001"] = some (r, s1) ∧ r.Status = 404)
    ∧ (shape4 [lit "ID001", lit "B", lit "t2", lit "e2"] →
        ∃ r s1, update plainLib emptyStub [lit "ID001", lit "B", lit "t2", lit "e2"]
          = some (r, s1) ∧ r.Status = 404)
    ∧ (shape1 64 [lit "ID001"] →
      ∃ r s1, delete plainLib emptyStub [lit "ID001"] = some (r, s1) ∧ r.Status = 404) :=
  C6_absent_id_not_found plainLib emptyStub (lit "ID001") (lit "B") (lit "t2") (lit "e2") rfl

theorem delete_204 (lib : Lib) (stub : Stub) (id : GoString) (r : Response) (stub1 : Stub)
    (hd : delete lib stub [id] = some (r, stub1)) (h204 : r.Status = 204) :
    shape1 64 [id] ∧ stub1.State = erase (ToLower lib id) stub.State := by
  by_cases hs : shape1 64 [id]
  · refine ⟨hs, ?_⟩
    rw [delete_valid lib stub id hs] at hd
    cases hg : stub.getErr (ToLower lib id) <;> cases hl : lookup (ToLower lib id) stub.State <;>
      simp only [hg, hl] at hd
    · simp at hd; obtain ⟨rfl, _⟩ := hd; simp [Error] at h204
    · cases hdel : stub.delErr (ToLower lib id) <;> simp [hdel, Stub.DelState, Stub.log] at hd
      · obtain ⟨_, rfl⟩ := hd; rfl
      · obtain ⟨rfl, _⟩ := hd; simp [Error] at h204
    · simp at hd; obtain ⟨rfl, _⟩ := hd; simp [Error] at h204
    · simp at hd; obtain ⟨rfl, _⟩ := hd; simp [Error] at h204
  · obtain ⟨msg, e⟩ := delete_invalid lib stub [id] hs
    rw [e] at hd
    simp at hd; obtain ⟨rfl, _⟩ := hd; simp [Error] at h204

/-- C8. If `delete(id)` returns 204, then `exist(id)` called on the resulting
ledger returns status 404. -/
theorem C8_delete_then_exist (lib : Lib) (stub : Stub) (id : GoString) (r : Response)
    (stub1 : Stub) (hd : delete lib stub [id] = some (r, stub1)) (h204 : r.Status = 204)
    (stub2 : Stub) (h2 : stub2.State = stub1.State) :
    ∃ r2 s2, exist lib stub2 [id] = some (r2, s2) ∧ r2.Status = 404 := by
  obtain ⟨hs, hst⟩ := delete_204 lib stub id r stub1 hd h204
  rw [exist_valid lib stub2 id hs, h2, hst, lookup_erase_same]
  cases stub2.getErr (ToLower lib id) <;> exact ⟨_, _, rfl, rfl⟩

/-! ## Claims C5, C7, C8 (witness) and C9 -/

/-- C8 (witness). Deleting "ID001" from the ledger that holds it, then asking
whether it exists. -/
theorem C8_delete_then_exist_witness :
    (delete plainLib oneRecordStub [lit "ID001"]).map (fun p => (p.1.Status, p.2.State))
        = some (204, emptyStub.State)
    ∧ ∃ r2 s2, exist plainLib emptyStub [lit "ID001"] = some (r2, s2) ∧ r2.Status = 404 :=
  ⟨by decide,
   C8_delete_then_exist plainLib oneRecordStub (lit "ID001") _ _ rfl (by decide) emptyStub
     (by decide)⟩


/-- C9 (counterexample). With an empty id, absent from the empty ledger,
`update` returns 400 and not 404: validation comes before the existence
check. -/
theorem C9_invalid_arguments_give_400 :
    lookup (ToLower plainLib []) emptyStub.State = none
    ∧ (update plainLib emptyStub [[], lit "B", lit "t2", lit "e2"]).map (fun p => p.1.Status)
        = some 400 := by
  decide

/-- C9 (amended). When the lower-cased id is not a key of the ledger, `update`
and `delete` leave the world state and the history as they were and issue no
request but, at most, the `GetState` of the existence check; the status is 404
when the arguments pass validation and 400 when they do not. -/
theorem C9_absent_id_no_write (lib : Lib) (stub : Stub) (id s t e : GoString)
    (habs : lookup (ToLower lib id) stub.State = none) :
    (∃ r s1, update lib stub [id, s, t, e] = some (r, s1)
        ∧ (shape4 [id, s, t, e] → r.Status = 404) ∧ (¬ shape4 [id, s, t, e] → r.Status = 400)
        ∧ s1.State = stub.State ∧ s1.History = stub.History
        ∧ (s1.Calls = stub.Calls ∨ s1.Calls = stub.Calls ++ [Call.GetState (ToLower lib id)]))
    ∧ (∃ r s1, delete lib stub [id] = some (r, s1)
        ∧ (shape1 64 [id] → r.Status = 404) ∧ (¬ shape1 64 [id] → r.Status = 400)
        ∧ s1.State = stub.State ∧ s1.History = stub.History
        ∧ (s1.Calls = stub.Calls ∨ s1.Calls = stub.Calls ++ [Call.GetState (ToLower lib id)])) := by
  constructor
  · by_cases hs : shape4 [id, s, t, e]
    · rw [update_valid lib stub id s t e hs, habs]
      cases stub.getErr (ToLower lib id) <;>
        exact ⟨_, _, rfl, fun _ => rfl, fun h => absurd hs h, rfl, rfl, Or.inr rfl⟩
    · obtain ⟨msg, e⟩ := update_invalid lib stub [id, s, t, e] hs
      rw [e]
      exact ⟨_, _, rfl, fun h => absurd h hs, fun _ => rfl, rfl, rfl, Or.inl rfl⟩
  · by_cases hs : shape1 64 [id]
    · rw [delete_valid lib stub id hs, habs]
      cases stub.getErr (ToLower lib id) <;>
        exact ⟨_, _, rfl, fun _ => rfl, fun h => absurd hs h, rfl, rfl, Or.inr rfl⟩
    · obtain ⟨msg, e⟩ := delete_invalid lib stub [id] hs
      rw [e]
      exact ⟨_, _, rfl, fun h => absurd h hs, fun _ => rfl, rfl, rfl, Or.inl rfl⟩

/-- C9 (witness). The id "ID002" on the ledger that holds "id001" only. -/
theorem C9_absent_id_no_write_witness :
    (∃ r s1, update plainLib oneRecordStub [lit "ID002", lit "B", lit "t2", lit "e2"]
          = some (r, s1)
        ∧ (shape4 [lit "ID002", lit "B", lit "t2", lit "e2"] → r.Status = 404)
        ∧ (¬ shape4 [lit "ID002", lit "B", lit "t2", lit "e2"] → r.Status = 400)
        ∧ s1.State = oneRecordStub.State ∧ s1.History = oneRecordStub.History
        ∧ (s1.Calls = oneRecordStub.Calls
            ∨ s1.Calls = oneRecordStub.Calls
                ++ [Call.GetState (ToLower plainLib (lit "ID002"))]))
    ∧ (∃ r s1, delete plainLib oneRecordStub [lit "ID002"] = some (r, s1)
        ∧ (shape1 64 [lit "ID002"] → r.Status = 404)
        ∧ (¬ shape1 64 [lit "ID002"] → r.Status = 400)
        ∧ s1.State = oneRecordStub.State ∧ s1.History = oneRecordStub.History
        ∧ (s1.Calls = oneRecordStub.Calls
            ∨ s1.Calls = oneRecordStub.Calls
                ++ [Call.GetState (ToLower plainLib (lit "ID002"))])) :=
  C9_absent_id_no_write plainLib oneRecordStub (lit "ID002") (lit "B") (lit "t2") (lit "e2")
    (by decide)

theorem create_201 (lib : Lib) (stub : Stub) (id s t e : GoString) (r : Response)
    (stub1 : Stub) (hc : create lib stub [id, s, t, e] = some (r, stub1))
    (h201 : r.Status = 201) :
    shape4 [id, s, t, e]
    ∧ stub1.State = store (ToLower lib id)
        (Doc.ToJson { DStatus := s, Timestamp := t, EdgeID := e }) stub.State := by
  by_cases hs : shape4 [id, s, t, e]
  · refine ⟨hs, ?_⟩
    rw [create_valid lib stub id s t e hs] at hc
    cases hp : stub.putErr (ToLower lib id)
        (Doc.ToJson { DStatus := s, Timestamp := t, EdgeID := e }) <;>
      simp [hp, Stub.PutState, Stub.log] at hc
    · obtain ⟨_, rfl⟩ := hc; rfl
    · obtain ⟨rfl, _⟩ := hc; simp [Error] at h201
  · obtain ⟨msg, e⟩ := create_invalid lib stub [id, s, t, e] hs
    rw [e] at hc
    simp at hc; obtain ⟨rfl, _⟩ := hc; simp [Error] at h201

theorem update_204 (lib : Lib) (stub : Stub) (id s t e : GoString) (r : Response)
    (stub1 : Stub) (hu : update lib stub [id, s, t, e] = some (r, stub1))
    (h204 : r.Status = 204) :
    shape4 [id, s, t, e]
    ∧ stub1.State = store (ToLower lib id)
        (Doc.ToJson { DStatus := s, Timestamp := t, EdgeID := e }) stub.State := by
  by_cases hs : shape4 [id, s, t, e]
  · refine ⟨hs, ?_⟩
    rw [update_valid lib stub id s t e hs] at hu
    cases hg : stub.getErr (ToLower lib id) <;> cases hl : lookup (ToLower lib id) stub.State <;>
      simp only [hg, hl] at hu
    · simp at hu; obtain ⟨rfl, _⟩ := hu; simp [Error] at h204
    · cases hp : stub.putErr (ToLower lib id)
          (Doc.ToJson { DStatus := s, Timestamp := t, EdgeID := e }) <;>
        simp [hp, Stub.PutState, Stub.log] at hu
      · obtain ⟨_, rfl⟩ := hu; rfl
      · obtain ⟨rfl, _⟩ := hu; simp [Error] at h204
    · simp at hu; obtain ⟨rfl, _⟩ := hu; simp [Error] at h204
    · simp at hu; obtain ⟨rfl, _⟩ := hu; simp [Error] at h204
  · obtain ⟨msg, e⟩ := update_invalid lib stub [id, s, t, e] hs
    rw [e] at hu
    simp at hu; obtain ⟨rfl, _⟩ := hu; simp [Error] at h204

theorem shape4_id (id s t e : GoString) (h : shape4 [id, s, t, e]) :
    shape1 64 [id] ∧ shape1 255 [id] := by
  obtain ⟨id2, s2, t2, e2, heq, h1, _⟩ := h
  simp at heq
  obtain ⟨rfl, _⟩ := heq
  exact ⟨⟨id, rfl, h1.1, h1.2⟩, ⟨id, rfl, h1.1, by omega⟩⟩


/-- C5 (counterexample). On the ledger that holds "id001", `update` returns 204;
a following `read` whose `GetState` request fails returns 404, not 200. -/
theorem C5_read_after_update_get_fails :
    ∃ r stub1,
      update plainLib oneRecordStub [lit "ID001", lit "B", lit "t2", lit "e2"] = some (r, stub1)
      ∧ r.Status = 204
      ∧ (read plainLib stub1.getFailing [lit "ID001"]).map (fun p => p.1.Status) = some 404 :=
  ⟨_, _, rfl, by decide, by decide⟩

/-- C5 (amended). If `update(id, s, t, e)` returns 204, then a following
`read(id)` on the resulting ledger, when its `GetState` request does not fail,
returns status 200 with payload exactly the encoding of the record (s, t, e):
nothing of the previous record is left. -/
theorem C5_update_then_read (lib : Lib) (stub : Stub) (id s t e : GoString) (r : Response)
    (stub1 : Stub) (hu : update lib stub [id, s, t, e] = some (r, stub1))
    (h204 : r.Status = 204) (stub2 : Stub) (h2 : stub2.State = stub1.State)
    (hget : stub2.getErr (ToLower lib id) = none) :
    ∃ s3, read lib stub2 [id]
      = some ({ Status := 200, Message := lit "OK",
                Payload := some (Doc.ToJson { DStatus := s, Timestamp := t, EdgeID := e }) },
              s3) := by
  obtain ⟨hs, hst⟩ := update_204 lib stub id s t e r stub1 hu h204
  rw [read_valid lib stub2 id (shape4_id id s t e hs).2, h2, hst, lookup_store_same, hget]
  exact ⟨_, rfl⟩

/-- C5 (witness). Updating "ID001" on the ledger that holds it, then reading
it through a peer that answers. -/
theorem C5_update_then_read_witness :
    ∃ s3, read plainLib
        { emptyStub with
          State := [{ Key := lit "id001",
                      Value := Doc.ToJson { DStatus := lit "B", Timestamp := lit "t2",
                                            EdgeID := lit "e2" } }] }
        [lit "ID001"]
      = some ({ Status := 200, Message := lit "OK",
                Payload := some (Doc.ToJson { DStatus := lit "B", Timestamp := lit "t2",
                                              EdgeID := lit "e2" }) },
              s3) :=
  C5_update_then_read plainLib oneRecordStub (lit "ID001") (lit "B") (lit "t2") (lit "e2") _ _
    rfl (by decide) _ (by decide) rfl

/-- C7 (counterexample). On the empty ledger `create` returns 201; a following
`exist` whose `GetState` request fails returns 404, not 204. -/
theorem C7_exist_after_create_get_fails :
    ∃ r stub1,
      create plainLib emptyStub [lit "ID001", lit "A", lit "t1", lit "e1"] = some (r, stub1)
      ∧ r.Status = 201
      ∧ (exist plainLib stub1.getFailing [lit "ID001"]).map (fun p => p.1.Status) = some 404 :=
  ⟨_, _, rfl, by decide, by decide⟩

/-- C7 (amended). If `create(id, s, t, e)` returns 201, then `exist(id)` on the
resulting ledger, when its `GetState` request does not fail, returns status
204 with no payload. -/
theorem C7_create_then_exist (lib : Lib) (stub : Stub) (id s t e : GoString) (r : Response)
    (stub1 : Stub) (hc : create lib stub [id, s, t, e] = some (r, stub1))
    (h201 : r.Status = 201) (stub2 : Stub) (h2 : stub2.State = stub1.State)
    (hget : stub2.getErr (ToLower lib id) = none) :
    ∃ r2 s3, exist lib stub2 [id] = some (r2, s3) ∧ r2.Status = 204 ∧ r2.Payload = none := by
  obtain ⟨hs, hst⟩ := create_201 lib stub id s t e r stub1 hc h201
  rw [exist_valid lib stub2 id (shape4_id id s t e hs).1, h2, hst, lookup_store_same, hget]
  exact ⟨_, _, rfl, rfl, rfl⟩

/-- C7 (witness). Creating "ID001" on the empty ledger, then asking whether it
exists through a peer that answers. -/
theorem C7_create_then_exist_witness :
    ∃ r2 s3, exist plainLib oneRecordStub [lit "ID001"] = some (r2, s3)
      ∧ r2.Status = 204 ∧ r2.Payload = none :=
  C7_create_then_exist plainLib emptyStub (lit "ID001") (lit "A") (lit "t1") (lit "e1") _ _
    rfl (by decide) oneRecordStub (by decide) rfl

/-! ## Claim C10: case-insensitive addressing -/

theorem Validate_length_error (name : GoString) (args : List GoString)
    (ts : List (Iface × Int × Int)) (hk : ∀ t ∈ ts, t.1 = Iface.str (lit "%s"))
    (hlen : args.length = ts.length) (hb : ¬ withinBounds args ts) :
    Validate name args (descOf ts) = some (Error 400 (lit "Parameter Length Error")) := by
  have hn : (descOf ts).length / 3 = ts.length := by rw [descOf_length]; omega
  have hV : Validate name args (descOf ts) = validateLoop args (descOf ts) ts.length 0 := by
    simp [Validate, hn, hlen]
  rw [hV]
  apply validateLoop_bad args ts hk hlen ts.length 0 (by omega)
  simp only [withinBounds, not_forall] at hb
  obtain ⟨j, a, t, ha, ht, hb⟩ := hb
  exact ⟨j, a, t, Nat.zero_le j, ha, ht, hb⟩

theorem Validate_one_length_error (name : GoString) (bound : Nat) (a : GoString)
    (h : ¬ shape1 bound [a]) :
    Validate name [a] [Iface.str (lit "%s"), Iface.int 1, Iface.int bound]
      = some (Error 400 (lit "Parameter Length Error")) :=
  Validate_length_error name [a] [(Iface.str (lit "%s"), (1 : Int), (bound : Int))] (by simp) rfl
    (fun hb => h ((shape1_iff bound [a]).mpr ⟨rfl, hb⟩))

theorem Validate_four_length_error (name : GoString) (id s t e : GoString)
    (h : ¬ shape4 [id, s, t, e]) :
    Validate name [id, s, t, e] docDesc = some (Error 400 (lit "Parameter Length Error")) :=
  Validate_length_error name [id, s, t, e] [(Iface.str (lit "%s"), (1 : Int), (64 : Int)),
          (Iface.str (lit "%s"), (1 : Int), (255 : Int)),
          (Iface.str (lit "%s"), (1 : Int), (255 : Int)),
          (Iface.str (lit "%s"), (1 : Int), (255 : Int))] (by simp) rfl
    (fun hb => h ((shape4_iff [id, s, t, e]).mpr ⟨rfl, hb⟩))

theorem shape1_singleton (bound : Nat) (a : GoString) :
    shape1 bound [a] ↔ (1 ≤ a.length ∧ a.length ≤ bound) := by
  constructor
  · rintro ⟨c, hc, h⟩
    simp at hc; subst hc; exact h
  · intro h; exact ⟨a, rfl, h⟩

theorem shape4_quad (id s t e : GoString) :
    shape4 [id, s, t, e] ↔ ((1 ≤ id.length ∧ id.length ≤ 64)
      ∧ (1 ≤ s.length ∧ s.length ≤ 255) ∧ (1 ≤ t.length ∧ t.length ≤ 255)
      ∧ (1 ≤ e.length ∧ e.length ≤ 255)) := by
  constructor
  · rintro ⟨id2, s2, t2, e2, heq, h⟩
    simp at heq
    obtain ⟨rfl, rfl, rfl, rfl⟩ := heq
    exact h
  · intro h; exact ⟨id, s, t, e, rfl, h⟩

theorem exist_congr (lib : Lib) (stub : Stub) (a b : GoString)
    (h : ToLower lib a = ToLower lib b) (hs : shape1 64 [a] ↔ shape1 64 [b]) :
    exist lib stub [a] = exist lib stub [b] := by
  by_cases ha : shape1 64 [a]
  · rw [exist_valid lib stub a ha, exist_valid lib stub b (hs.mp ha), h]
  · have hb : ¬ shape1 64 [b] := fun hb => ha (hs.mpr hb)
    have ea := Validate_one_length_error (lit "exist") 64 a ha
    have eb := Validate_one_length_error (lit "exist") 64 b hb
    simp only [Nat.cast_ofNat] at ea eb
    simp [exist, ea, eb, Error]

theorem read_congr (lib : Lib) (stub : Stub) (a b : GoString)
    (h : ToLower lib a = ToLower lib b) (hs : shape1 255 [a] ↔ shape1 255 [b]) :
    read lib stub [a] = read lib stub [b] := by
  by_cases ha : shape1 255 [a]
  · rw [read_valid lib stub a ha, read_valid lib stub b (hs.mp ha), h]
  · have hb : ¬ shape1 255 [b] := fun hb => ha (hs.mpr hb)
    have ea := Validate_one_length_error (lit "read") 255 a ha
    have eb := Validate_one_length_error (lit "read") 255 b hb
    simp only [Nat.cast_ofNat] at ea eb
    simp [read, ea, eb, Error]

theorem delete_congr (lib : Lib) (stub : Stub) (a b : GoString)
    (h : ToLower lib a = ToLower lib b) (hs : shape1 64 [a] ↔ shape1 64 [b]) :
    delete lib stub [a] = delete lib stub [b] := by
  by_cases ha : shape1 64 [a]
  · rw [delete_valid lib stub a ha, delete_valid lib stub b (hs.mp ha), h]
  · have hb : ¬ shape1 64 [b] := fun hb => ha (hs.mpr hb)
    have ea := Validate_one_length_error (lit "delete") 64 a ha
    have eb := Validate_one_length_error (lit "delete") 64 b hb
    simp only [Nat.cast_ofNat] at ea eb
    simp [delete, ea, eb, Error]

theorem history_congr (lib : Lib) (stub : Stub) (a b : GoString)
    (h : ToLower lib a = ToLower lib b) (hs : shape1 64 [a] ↔ shape1 64 [b]) :
    history lib stub [a] = history lib stub [b] := by
  by_cases ha : shape1 64 [a]
  · rw [history_valid lib stub a ha, history_valid lib stub b (hs.mp ha), h]
  · have hb : ¬ shape1 64 [b] := fun hb => ha (hs.mpr hb)
    have ea := Validate_one_length_error (lit "history") 64 a ha
    have eb := Validate_one_length_error (lit "history") 64 b hb
    simp only [Nat.cast_ofNat] at ea eb
    simp [history, ea, eb, Error]

theorem create_congr (lib : Lib) (stub : Stub) (a b s t e : GoString)
    (h : ToLower lib a = ToLower lib b) (hs : shape4 [a, s, t, e] ↔ shape4 [b, s, t, e]) :
    create lib stub [a, s, t, e] = create lib stub [b, s, t, e] := by
  by_cases ha : shape4 [a, s, t, e]
  · rw [create_valid lib stub a s t e ha, create_valid lib stub b s t e (hs.mp ha), h]
  · have hb : ¬ shape4 [b, s, t, e] := fun hb => ha (hs.mpr hb)
    simp [create, Validate_four_length_error (lit "create") a s t e ha,
      Validate_four_length_error (lit "create") b s t e hb, Error]

theorem update_congr (lib : Lib) (stub : Stub) (a b s t e : GoString)
    (h : ToLower lib a = ToLower lib b) (hs : shape4 [a, s, t, e] ↔ shape4 [b, s, t, e]) :
    update lib stub [a, s, t, e] = update lib stub [b, s, t, e] := by
  by_cases ha : shape4 [a, s, t, e]
  · rw [update_valid lib stub a s t e ha, update_valid lib stub b s t e (hs.mp ha), h]
  · have hb : ¬ shape4 [b, s, t, e] := fun hb => ha (hs.mpr hb)
    simp [update, Validate_four_length_error (lit "update") a s t e ha,
      Validate_four_length_error (lit "update") b s t e hb, Error]

theorem ToLower_ID001 (lib : Lib) : ToLower lib (lit "ID001") = lit "id001" := rfl

theorem ToLower_id001 (lib : Lib) : ToLower lib (lit "id001") = lit "id001" := rfl

/-- C10 (counterexample). With the Kelvin sign, whose lower-case form is `k`:
the id of 22 Kelvin signs (66 bytes) and the id of 22 letters `k` have the same
lower-case form, yet `exist` rejects the first with 400 for its length and
looks the second up (404 on the empty ledger). -/
theorem C10_length_is_checked_before_lowering :
    ToLower kelvinLib kelvinId = ToLower kelvinLib smallKId
    ∧ (exist kelvinLib emptyStub [kelvinId]).map (fun p => p.1.Status) = some 400
    ∧ (exist kelvinLib emptyStub [smallKId]).map (fun p => p.1.Status) = some 404 := by
  decide


/-- C10 (amended). For two ids with the same lower-case form, each verb gives
the same response and the same resulting stub for the one as for the other
(other arguments equal) when its validation accepts the two calls together or
rejects them together: `exist`, `delete` and `history` when the two ids lie
within 1 to 64 bytes together, `read` when they lie within 1 to 255 bytes
together, `create` and `update` when the four arguments are valid together,
for which the agreement on 1 to 64 is enough. In particular a record created
under "ID001" is read back under "id001" by a `read` whose `GetState` request
does not fail. -/
theorem C10_case_insensitive (lib : Lib) (stub : Stub) (a b s t e : GoString)
    (h : ToLower lib a = ToLower lib b) :
    (((1 ≤ a.length ∧ a.length ≤ 64) ↔ (1 ≤ b.length ∧ b.length ≤ 64)) →
        exist lib stub [a] = exist lib stub [b]
        ∧ delete lib stub [a] = delete lib stub [b]
        ∧ history lib stub [a] = history lib stub [b])
    ∧ (((1 ≤ a.length ∧ a.length ≤ 255) ↔ (1 ≤ b.length ∧ b.length ≤ 255)) →
        read lib stub [a] = read lib stub [b])
    ∧ ((shape4 [a, s, t, e] ↔ shape4 [b, s, t, e]) →
        create lib stub [a, s, t, e] = create lib stub [b, s, t, e]
        ∧ update lib stub [a, s, t, e] = update lib stub [b, s, t, e])
    ∧ (((1 ≤ a.length ∧ a.length ≤ 64) ↔ (1 ≤ b.length ∧ b.length ≤ 64)) →
        (shape4 [a, s, t, e] ↔ shape4 [b, s, t, e]))
    ∧ (∀ r stub1, create lib stub [lit "ID001", s, t, e] = some (r, stub1) → r.Status = 201 →
        ∀ stub2 : Stub, stub2.State = stub1.State → stub2.getErr (lit "id001") = none →
          ∃ s3, read lib stub2 [lit "id001"]
            = some ({ Status := 200, Message := lit "OK",
                      Payload := some (Doc.ToJson { DStatus := s, Timestamp := t,
                                                    EdgeID := e }) }, s3)) := by
  refine ⟨fun h64 => ?_, fun h255 => ?_, fun hs4 => ?_, fun h64 => ?_, ?_⟩
  · have hs1 : shape1 64 [a] ↔ shape1 64 [b] := by
      rw [shape1_singleton, shape1_singleton]; exact h64
    exact ⟨exist_congr lib stub a b h hs1, delete_congr lib stub a b h hs1,
      history_congr lib stub a b h hs1⟩
  · have hs2 : shape1 255 [a] ↔ shape1 255 [b] := by
      rw [shape1_singleton, shape1_singleton]; exact h255
    exact read_congr lib stub a b h hs2
  · exact ⟨create_congr lib stub a b s t e h hs4, update_congr lib stub a b s t e h hs4⟩
  · rw [shape4_quad, shape4_quad, h64]
  · intro r stub1 hc h201 stub2 h2 hget
    obtain ⟨hs, hst⟩ := create_201 lib stub (lit "ID001") s t e r stub1 hc h201
    have hv : shape1 255 [lit "id001"] := ⟨lit "id001", rfl, by decide, by decide⟩
    rw [read_valid lib stub2 (lit "id001") hv, ToLower_id001, h2, hst, ToLower_ID001,
      lookup_store_same, hget]
    exact ⟨_, rfl⟩

/-- C10 (witness). The ids "ID001" and "id001" agree under every verb; the id
of 22 Kelvin signs and the id of 22 letters `k`, which `exist` tells apart,
lie within 1 to 255 bytes together and agree under `read`. -/
theorem C10_case_insensitive_witness :
    (exist plainLib emptyStub [lit "ID001"] = exist plainLib emptyStub [lit "id001"]
      ∧ delete plainLib emptyStub [lit "ID001"] = delete plainLib emptyStub [lit "id001"]
      ∧ history plainLib emptyStub [lit "ID001"] = history plainLib emptyStub [lit "id001"])
    ∧ read plainLib emptyStub [lit "ID001"] = read plainLib emptyStub [lit "id001"]
    ∧ (create plainLib emptyStub [lit "ID001", lit "A", lit "t1", lit "e1"]
          = create plainLib emptyStub [lit "id001", lit "A", lit "t1", lit "e1"]
      ∧ update plainLib emptyStub [lit "ID001", lit "A", lit "t1", lit "e1"]
          = update plainLib emptyStub [lit "id001", lit "A", lit "t1", lit "e1"])
    ∧ read kelvinLib emptyStub [kelvinId] = read kelvinLib emptyStub [smallKId] :=
  ⟨(C10_case_insensitive plainLib emptyStub (lit "ID001") (lit "id001") (lit "A") (lit "t1")
      (lit "e1") rfl).1 (by decide),
   (C10_case_insensitive plainLib emptyStub (lit "ID001") (lit "id001") (lit "A") (lit "t1")
      (lit "e1") rfl).2.1 (by decide),
   (C10_case_insensitive plainLib emptyStub (lit "ID001") (lit "id001") (lit "A") (lit "t1")
      (lit "e1") rfl).2.2.1
     ((C10_case_insensitive plainLib emptyStub (lit "ID001") (lit "id001") (lit "A") (lit "t1")
      (lit "e1") rfl).2.2.2.1 (by decide)),
   (C10_case_insensitive kelvinLib emptyStub kelvinId smallKId (lit "A") (lit "t1")
      (lit "e1") (by decide)).2.1 (by decide)⟩

/-! ## Properties: UTF-8 and the JSON string codec -/

/-- The three well-formed shapes of a multi-byte sequence. -/
theorem DecodeRune_cases (b : Byte) (s : GoString) (hb : 0x80 ≤ b.val)
    (hv : ¬ ((DecodeRune (b :: s)).1 = RuneError ∧ (DecodeRune (b :: s)).2 = 1)) :
    (∃ b1 s2, s = b1 :: s2 ∧ 0xC2 ≤ b.val ∧ b.val ≤ 0xDF ∧ 0x80 ≤ b1.val ∧ b1.val ≤ 0xBF
        ∧ DecodeRune (b :: s) = ((b.val % 32) * 64 + b1.val % 64, 2))
    ∨ (∃ b1 b2 s3, s = b1 :: b2 :: s3 ∧ 0xE0 ≤ b.val ∧ b.val ≤ 0xEF
        ∧ (if b.val = 0xE0 then 0xA0 else 0x80) ≤ b1.val
        ∧ b1.val ≤ (if b.val = 0xED then 0x9F else 0xBF)
        ∧ 0x80 ≤ b2.val ∧ b2.val ≤ 0xBF
        ∧ DecodeRune (b :: s)
            = ((b.val % 16) * 4096 + (b1.val % 64) * 64 + b2.val % 64, 3))
    ∨ (∃ b1 b2 b3 s4, s = b1 :: b2 :: b3 :: s4 ∧ 0xF0 ≤ b.val ∧ b.val ≤ 0xF4
        ∧ (if b.val = 0xF0 then 0x90 else 0x80) ≤ b1.val
        ∧ b1.val ≤ (if b.val = 0xF4 then 0x8F else 0xBF)
        ∧ 0x80 ≤ b2.val ∧ b2.val ≤ 0xBF ∧ 0x80 ≤ b3.val ∧ b3.val ≤ 0xBF
        ∧ DecodeRune (b :: s)
            = ((b.val % 8) * 262144 + (b1.val % 64) * 4096 + (b2.val % 64) * 64
                + b3.val % 64, 4)) := by
  have h0 : ¬ b.val < 0x80 := by omega
  by_cases h1 : b.val < 0xC2 ∨ 0xF4 < b.val
  · exact absurd (by simp [DecodeRune, h0, h1]) hv
  by_cases h2 : b.val < 0xE0
  · left
    match s with
    | [] => exact absurd (by simp [DecodeRune, h0, h1, h2]) hv
    | b1 :: s2 =>
      have e0 : ¬ b.val = 0xE0 := by omega
      have e1 : ¬ b.val = 0xF0 := by omega
      have e2 : ¬ b.val = 0xED := by omega
      have e3 : ¬ b.val = 0xF4 := by omega
      by_cases h3 : b1.val < 0x80 ∨ 0xBF < b1.val
      · exact absurd (by simp [DecodeRune, h0, h1, h2, e0, e1, e2, e3, h3]) hv
      · refine ⟨b1, s2, rfl, by omega, by omega, by omega, by omega, ?_⟩
        simp [DecodeRune, h0, h1, h2, e0, e1, e2, e3, h3]
  by_cases h4 : b.val < 0xF0
  · right; left
    have e1 : ¬ b.val = 0xF0 := by omega
    have e3 : ¬ b.val = 0xF4 := by omega
    match s with
    | [] => exact absurd (by simp [DecodeRune, h0, h1, h2, h4]) hv
    | [b1] => exact absurd (by simp [DecodeRune, h0, h1, h2, h4]) hv
    | b1 :: b2 :: s3 =>
      by_cases h3 : b1.val < (if b.val = 0xE0 then 0xA0 else 0x80)
          ∨ (if b.val = 0xED then 0x9F else 0xBF) < b1.val
      · exact absurd (by simp [DecodeRune, h0, h1, h2, h4, e1, e3, h3]) hv
      by_cases h5 : b2.val < 0x80 ∨ 0xBF < b2.val
      · exact absurd (by simp [DecodeRune, h0, h1, h2, h4, e1, e3, h3, h5]) hv
      refine ⟨b1, b2, s3, rfl, by omega, by omega, by omega, by omega, by omega, by omega, ?_⟩
      simp [DecodeRune, h0, h1, h2, h4, e1, e3, h3, h5]
  · right; right
    have e0 : ¬ b.val = 0xE0 := by omega
    have e2 : ¬ b.val = 0xED := by omega
    match s with
    | [] => exact absurd (by simp [DecodeRune, h0, h1, h2, h4]) hv
    | [b1] => exact absurd (by simp [DecodeRune, h0, h1, h2, h4]) hv
    | [b1, b2] => exact absurd (by simp [DecodeRune, h0, h1, h2, h4]) hv
    | b1 :: b2 :: b3 :: s4 =>
      by_cases h3 : b1.val < (if b.val = 0xF0 then 0x90 else 0x80)
          ∨ (if b.val = 0xF4 then 0x8F else 0xBF) < b1.val
      · exact absurd (by simp [DecodeRune, h0, h1, h2, h4, e0, e2, h3]) hv
      by_cases h5 : b2.val < 0x80 ∨ 0xBF < b2.val
      · exact absurd (by simp [DecodeRune, h0, h1, h2, h4, e0, e2, h3, h5]) hv
      by_cases h6 : b3.val < 0x80 ∨ 0xBF < b3.val
      · exact absurd (by simp [DecodeRune, h0, h1, h2, h4, e0, e2, h3, h5, h6]) hv
      refine ⟨b1, b2, b3, s4, rfl, by omega, by omega, by omega, by omega, by omega, by omega,
        by omega, by omega, ?_⟩
      simp [DecodeRune, h0, h1, h2, h4, e0, e2, h3, h5, h6]


theorem byte_eq (n : Nat) (b : Byte) (h : n % 256 = b.val) : byte n = b := by
  apply Fin.ext
  simpa [byte, Fin.ofNat] using h

theorem byte_val (n : Nat) : (byte n).val = n % 256 := by
  simp [byte, Fin.ofNat]

theorem DecodeRune_two (b b1 : Byte) (s : GoString) (h1 : 0xC2 ≤ b.val) (h2 : b.val ≤ 0xDF)
    (h3 : 0x80 ≤ b1.val) (h4 : b1.val ≤ 0xBF) :
    DecodeRune (b :: b1 :: s) = ((b.val % 32) * 64 + b1.val % 64, 2) := by
  have c0 : ¬ b.val < 0x80 := by omega
  have c1 : ¬ (b.val < 0xC2 ∨ 0xF4 < b.val) := by omega
  have c2 : b.val < 0xE0 := by omega
  have e0 : ¬ b.val = 0xE0 := by omega
  have e1 : ¬ b.val = 0xF0 := by omega
  have e2 : ¬ b.val = 0xED := by omega
  have e3 : ¬ b.val = 0xF4 := by omega
  have c3 : ¬ (b1.val < 0x80 ∨ 0xBF < b1.val) := by omega
  simp [DecodeRune, c0, c1, c2, e0, e1, e2, e3, c3]

theorem DecodeRune_three (b b1 b2 : Byte) (s : GoString) (h1 : 0xE0 ≤ b.val)
    (h2 : b.val ≤ 0xEF) (h3 : (if b.val = 0xE0 then 0xA0 else 0x80) ≤ b1.val)
    (h4 : b1.val ≤ (if b.val = 0xED then 0x9F else 0xBF))
    (h5 : 0x80 ≤ b2.val) (h6 : b2.val ≤ 0xBF) :
    DecodeRune (b :: b1 :: b2 :: s)
      = ((b.val % 16) * 4096 + (b1.val % 64) * 64 + b2.val % 64, 3) := by
  have c0 : ¬ b.val < 0x80 := by omega
  have c1 : ¬ (b.val < 0xC2 ∨ 0xF4 < b.val) := by omega
  have c2 : ¬ b.val < 0xE0 := by omega
  have c4 : b.val < 0xF0 := by omega
  have e1 : ¬ b.val = 0xF0 := by omega
  have e3 : ¬ b.val = 0xF4 := by omega
  have c3 : ¬ (b1.val < (if b.val = 0xE0 then 0xA0 else 0x80)
      ∨ (if b.val = 0xED then 0x9F else 0xBF) < b1.val) := by omega
  have c5 : ¬ (b2.val < 0x80 ∨ 0xBF < b2.val) := by omega
  simp [DecodeRune, c0, c1, c2, c4, e1, e3, c3, c5]

theorem DecodeRune_four (b b1 b2 b3 : Byte) (s : GoString) (h1 : 0xF0 ≤ b.val)
    (h2 : b.val ≤ 0xF4) (h3 : (if b.val = 0xF0 then 0x90 else 0x80) ≤ b1.val)
    (h4 : b1.val ≤ (if b.val = 0xF4 then 0x8F else 0xBF))
    (h5 : 0x80 ≤ b2.val) (h6 : b2.val ≤ 0xBF) (h7 : 0x80 ≤ b3.val) (h8 : b3.val ≤ 0xBF) :
    DecodeRune (b :: b1 :: b2 :: b3 :: s)
      = ((b.val % 8) * 262144 + (b1.val % 64) * 4096 + (b2.val % 64) * 64 + b3.val % 64, 4) := by
  have c0 : ¬ b.val < 0x80 := by omega
  have c1 : ¬ (b.val < 0xC2 ∨ 0xF4 < b.val) := by omega
  have c2 : ¬ b.val < 0xE0 := by omega
  have c4 : ¬ b.val < 0xF0 := by omega
  have e0 : ¬ b.val = 0xE0 := by omega
  have e2 : ¬ b.val = 0xED := by omega
  have c3 : ¬ (b1.val < (if b.val = 0xF0 then 0x90 else 0x80)
      ∨ (if b.val = 0xF4 then 0x8F else 0xBF) < b1.val) := by omega
  have c5 : ¬ (b2.val < 0x80 ∨ 0xBF < b2.val) := by omega
  have c6 : ¬ (b3.val < 0x80 ∨ 0xBF < b3.val) := by omega
  simp [DecodeRune, c0, c1, c2, c4, e0, e2, c3, c5, c6]

theorem EncodeRune_two (b b1 : Byte) (h1 : 0xC2 ≤ b.val) (h2 : b.val ≤ 0xDF)
    (h3 : 0x80 ≤ b1.val) (h4 : b1.val ≤ 0xBF) :
    EncodeRune ((b.val % 32) * 64 + b1.val % 64) = [b, b1] := by
  have c0 : ¬ ((b.val % 32) * 64 + b1.val % 64 ≤ 0x7F) := by omega
  have c1 : (b.val % 32) * 64 + b1.val % 64 ≤ 0x7FF := by omega
  rw [EncodeRune, if_neg c0, if_pos c1]
  rw [byte_eq _ b (by omega), byte_eq _ b1 (by omega)]

theorem EncodeRune_three (b b1 b2 : Byte) (h1 : 0xE0 ≤ b.val)
    (h2 : b.val ≤ 0xEF) (h3 : (if b.val = 0xE0 then 0xA0 else 0x80) ≤ b1.val)
    (h4 : b1.val ≤ (if b.val = 0xED then 0x9F else 0xBF))
    (h5 : 0x80 ≤ b2.val) (h6 : b2.val ≤ 0xBF) :
    EncodeRune ((b.val % 16) * 4096 + (b1.val % 64) * 64 + b2.val % 64) = [b, b1, b2] := by
  have hb1 : b1.val ≤ 0xBF := by split at h4 <;> omega
  have hb1' : 0x80 ≤ b1.val := by split at h3 <;> omega
  have c0 : ¬ ((b.val % 16) * 4096 + (b1.val % 64) * 64 + b2.val % 64 ≤ 0x7F) := by
    split at h3 <;> omega
  have c1 : ¬ ((b.val % 16) * 4096 + (b1.val % 64) * 64 + b2.val % 64 ≤ 0x7FF) := by
    split at h3 <;> omega
  have c2 : ¬ (0x10FFFF < (b.val % 16) * 4096 + (b1.val % 64) * 64 + b2.val % 64
      ∨ (0xD800 ≤ (b.val % 16) * 4096 + (b1.val % 64) * 64 + b2.val % 64
          ∧ (b.val % 16) * 4096 + (b1.val % 64) * 64 + b2.val % 64 ≤ 0xDFFF)) := by
    split at h4 <;> omega
  have c3 : (b.val % 16) * 4096 + (b1.val % 64) * 64 + b2.val % 64 ≤ 0xFFFF := by omega
  rw [EncodeRune, if_neg c0, if_neg c1, if_neg c2, if_pos c3]
  rw [byte_eq _ b (by omega), byte_eq _ b1 (by omega), byte_eq _ b2 (by omega)]

theorem EncodeRune_four (b b1 b2 b3 : Byte) (h1 : 0xF0 ≤ b.val)
    (h2 : b.val ≤ 0xF4) (h3 : (if b.val = 0xF0 then 0x90 else 0x80) ≤ b1.val)
    (h4 : b1.val ≤ (if b.val = 0xF4 then 0x8F else 0xBF))
    (h5 : 0x80 ≤ b2.val) (h6 : b2.val ≤ 0xBF) (h7 : 0x80 ≤ b3.val) (h8 : b3.val ≤ 0xBF) :
    EncodeRune ((b.val % 8) * 262144 + (b1.val % 64) * 4096 + (b2.val % 64) * 64
        + b3.val % 64) = [b, b1, b2, b3] := by
  have hb1 : b1.val ≤ 0xBF := by split at h4 <;> omega
  have hb1' : 0x80 ≤ b1.val := by split at h3 <;> omega
  have c0 : ¬ ((b.val % 8) * 262144 + (b1.val % 64) * 4096 + (b2.val % 64) * 64
        + b3.val % 64 ≤ 0x7F) := by split at h3 <;> omega
  have c1 : ¬ ((b.val % 8) * 262144 + (b1.val % 64) * 4096 + (b2.val % 64) * 64
        + b3.val % 64 ≤ 0x7FF) := by split at h3 <;> omega
  have c2 : ¬ (0x10FFFF < (b.val % 8) * 262144 + (b1.val % 64) * 4096 + (b2.val % 64) * 64
        + b3.val % 64
      ∨ (0xD800 ≤ (b.val % 8) * 262144 + (b1.val % 64) * 4096 + (b2.val % 64) * 64
        + b3.val % 64
          ∧ (b.val % 8) * 262144 + (b1.val % 64) * 4096 + (b2.val % 64) * 64
        + b3.val % 64 ≤ 0xDFFF)) := by
    split at h4 <;> split at h3 <;> omega
  have c3 : ¬ ((b.val % 8) * 262144 + (b1.val % 64) * 4096 + (b2.val % 64) * 64
        + b3.val % 64 ≤ 0xFFFF) := by split at h3 <;> omega
  rw [EncodeRune, if_neg c0, if_neg c1, if_neg c2, if_neg c3]
  rw [byte_eq _ b (by omega), byte_eq _ b1 (by omega), byte_eq _ b2 (by omega),
    byte_eq _ b3 (by omega)]


theorem DecodeRune_chunk (b : Byte) (s : GoString) (hb : 0x80 ≤ b.val)
    (hv : ¬ ((DecodeRune (b :: s)).1 = RuneError ∧ (DecodeRune (b :: s)).2 = 1)) :
    ∃ tl rest, s = tl ++ rest ∧ (DecodeRune (b :: s)).2 = tl.length + 1
      ∧ EncodeRune (DecodeRune (b :: s)).1 = b :: tl
      ∧ ∀ t, DecodeRune (b :: (tl ++ t)) = DecodeRune (b :: s) := by
  rcases DecodeRune_cases b s hb hv with
    ⟨b1, s2, rfl, h1, h2, h3, h4, e⟩ | ⟨b1, b2, s3, rfl, h1, h2, h3, h4, h5, h6, e⟩
      | ⟨b1, b2, b3, s4, rfl, h1, h2, h3, h4, h5, h6, h7, h8, e⟩
  · refine ⟨[b1], s2, rfl, by rw [e]; rfl, by rw [e]; exact EncodeRune_two b b1 h1 h2 h3 h4, ?_⟩
    intro t
    rw [e]; exact DecodeRune_two b b1 t h1 h2 h3 h4
  · refine ⟨[b1, b2], s3, rfl, by rw [e]; rfl,
      by rw [e]; exact EncodeRune_three b b1 b2 h1 h2 h3 h4 h5 h6, ?_⟩
    intro t
    rw [e]; exact DecodeRune_three b b1 b2 t h1 h2 h3 h4 h5 h6
  · refine ⟨[b1, b2, b3], s4, rfl, by rw [e]; rfl,
      by rw [e]; exact EncodeRune_four b b1 b2 b3 h1 h2 h3 h4 h5 h6 h7 h8, ?_⟩
    intro t
    rw [e]; exact DecodeRune_four b b1 b2 b3 t h1 h2 h3 h4 h5 h6 h7 h8

theorem hexVal_hexDigit (k : Nat) (h : k < 16) : hexVal (hexDigit k) = some k := by
  interval_cases k <;> decide

theorem getu4_hex (a b c d : Nat) (ha : a < 16) (hb : b < 16) (hc : c < 16) (hd : d < 16)
    (s : GoString) :
    getu4 (hexDigit a :: hexDigit b :: hexDigit c :: hexDigit d :: s)
      = some (a * 4096 + b * 256 + c * 16 + d, s) := by
  simp [getu4, hexVal_hexDigit, ha, hb, hc, hd]

theorem parse_plain (F : Nat) (c : Byte) (s : GoString) (h1 : c.val ≠ 0x22)
    (h2 : c.val ≠ 0x5C) (h3 : 0x20 ≤ c.val) (h4 : c.val < 0x80) :
    parseStringBody (F + 1) (c :: s) = (parseStringBody F s).map (fun r => (c :: r.1, r.2)) := by
  have h5 : ¬ c.val < 0x20 := by omega
  simp [parseStringBody, h1, h2, h5, h4]

theorem parse_quote (F : Nat) (s : GoString) :
    parseStringBody (F + 1) (byte 0x22 :: s) = some ([], s) := by
  simp [parseStringBody, byte_val]

theorem parse_escaped (F : Nat) (e : Byte) (s : GoString) (h : e.val = 0x5C ∨ e.val = 0x22) :
    parseStringBody (F + 1) (byte 0x5C :: e :: s)
      = (parseStringBody F s).map (fun r => (e :: r.1, r.2)) := by
  have h1 : e.val = 0x22 ∨ e.val = 0x5C ∨ e.val = 0x2F := by omega
  simp [parseStringBody, byte_val, h1]

theorem parse_control (F : Nat) (e c : Byte) (s : GoString)
    (h : (e = byte 0x6E ∧ c = byte 0x0A) ∨ (e = byte 0x72 ∧ c = byte 0x0D)
      ∨ (e = byte 0x74 ∧ c = byte 0x09)) :
    parseStringBody (F + 1) (byte 0x5C :: e :: s)
      = (parseStringBody F s).map (fun r => (c :: r.1, r.2)) := by
  rcases h with ⟨rfl, rfl⟩ | ⟨rfl, rfl⟩ | ⟨rfl, rfl⟩ <;> simp [parseStringBody, byte_val]

theorem parse_unicode (F : Nat) (a b c d : Nat) (ha : a < 16) (hb : b < 16) (hc : c < 16)
    (hd : d < 16) (s : GoString)
    (hsur : ¬ (0xD800 ≤ a * 4096 + b * 256 + c * 16 + d
      ∧ a * 4096 + b * 256 + c * 16 + d < 0xE000)) :
    parseStringBody (F + 1)
        (byte 0x5C :: byte 0x75 :: hexDigit a :: hexDigit b :: hexDigit c :: hexDigit d :: s)
      = (parseStringBody F s).map
          (fun r => (EncodeRune (a * 4096 + b * 256 + c * 16 + d) ++ r.1, r.2)) := by
  simp [parseStringBody, byte_val, getu4_hex, ha, hb, hc, hd, hsur]

theorem parse_high (F : Nat) (c : Byte) (s : GoString) (h : 0x80 ≤ c.val) :
    parseStringBody (F + 1) (c :: s)
      = (parseStringBody F ((c :: s).drop (DecodeRune (c :: s)).2)).map
          (fun r => (EncodeRune (DecodeRune (c :: s)).1 ++ r.1, r.2)) := by
  have h1 : ¬ c.val = 0x22 := by omega
  have h2 : ¬ c.val = 0x5C := by omega
  have h3 : ¬ c.val < 0x20 := by omega
  have h4 : ¬ c.val < 0x80 := by omega
  simp [parseStringBody, h1, h2, h3, h4]


theorem EncodeRune_ascii (b : Byte) (h : b.val < 0x80) : EncodeRune b.val = [b] := by
  have c : b.val ≤ 0x7F := by omega
  rw [EncodeRune, if_pos c, byte_eq _ b (by omega)]

theorem ValidString_cons (n : Nat) (b : Byte) (s : GoString)
    (h : ValidString (n + 1) (b :: s) = true) :
    ¬ ((DecodeRune (b :: s)).1 = RuneError ∧ (DecodeRune (b :: s)).2 = 1)
    ∧ ValidString n ((b :: s).drop (DecodeRune (b :: s)).2) = true := by
  simp only [ValidString, Bool.and_eq_true, Bool.not_eq_true', decide_eq_false_iff_not] at h
  exact h

theorem parse_encode : ∀ (n : Nat) (s t : GoString) (F : Nat), s.length ≤ n →
    ValidString n s = true → (encodeString n s).length < F →
    parseStringBody F (encodeString n s ++ byte 0x22 :: t) = some (s, t) := by
  intro n
  induction n with
  | zero =>
    intro s t F hl _ hF
    have hs : s = [] := List.length_eq_zero.mp (by omega)
    subst hs
    obtain ⟨F', rfl⟩ : ∃ F', F = F' + 1 := ⟨F - 1, by omega⟩
    simpa [encodeString] using parse_quote F' t
  | succ n ih =>
    intro s t F hl hv hF
    obtain ⟨F', rfl⟩ : ∃ F', F = F' + 1 := ⟨F - 1, by omega⟩
    match s with
    | [] => simpa [encodeString] using parse_quote F' t
    | b :: s' =>
      obtain ⟨hv1, hv2⟩ := ValidString_cons n b s' hv
      have hl' : s'.length ≤ n := by simpa using hl
      by_cases hb : b.val < 0x80
      · have hd : DecodeRune (b :: s') = (b.val, 1) := by simp [DecodeRune, hb]
        rw [hd] at hv2
        simp only [List.drop_succ_cons, List.drop_zero] at hv2
        rw [encodeString, if_pos hb] at hF ⊢
        by_cases c1 : b.val = 0x5C ∨ b.val = 0x22
        · rw [if_pos c1] at hF ⊢
          simp only [List.cons_append, List.nil_append, List.length_cons,
            List.length_append, List.length_nil] at hF ⊢
          rw [parse_escaped F' b _ c1, ih s' t F' hl' hv2 (by omega)]
          rfl
        rw [if_neg c1] at hF ⊢
        by_cases c2 : b.val = 0x0A
        · rw [if_pos c2] at hF ⊢
          simp only [List.cons_append, List.nil_append, List.length_cons,
            List.length_append, List.length_nil] at hF ⊢
          rw [parse_control F' _ b _ (Or.inl ⟨rfl, (byte_eq _ b (by omega)).symm⟩),
            ih s' t F' hl' hv2 (by omega)]
          rfl
        rw [if_neg c2] at hF ⊢
        by_cases c3 : b.val = 0x0D
        · rw [if_pos c3] at hF ⊢
          simp only [List.cons_append, List.nil_append, List.length_cons,
            List.length_append, List.length_nil] at hF ⊢
          rw [parse_control F' _ b _ (Or.inr (Or.inl ⟨rfl, (byte_eq _ b (by omega)).symm⟩)),
            ih s' t F' hl' hv2 (by omega)]
          rfl
        rw [if_neg c3] at hF ⊢
        by_cases c4 : b.val = 0x09
        · rw [if_pos c4] at hF ⊢
          simp only [List.cons_append, List.nil_append, List.length_cons,
            List.length_append, List.length_nil] at hF ⊢
          rw [parse_control F' _ b _ (Or.inr (Or.inr ⟨rfl, (byte_eq _ b (by omega)).symm⟩)),
            ih s' t F' hl' hv2 (by omega)]
          rfl
        rw [if_neg c4] at hF ⊢
        by_cases c5 : b.val < 0x20 ∨ b.val = 0x3C ∨ b.val = 0x3E ∨ b.val = 0x26
        · rw [if_pos c5] at hF ⊢
          simp only [List.cons_append, List.nil_append, List.length_cons,
            List.length_append, List.length_nil] at hF ⊢
          have h30 : byte 0x30 = hexDigit 0 := rfl
          rw [h30, parse_unicode F' 0 0 (b.val / 16) (b.val % 16) (by omega) (by omega)
            (by omega) (by omega) _ (by omega), ih s' t F' hl' hv2 (by omega)]
          have hr : 0 * 4096 + 0 * 256 + b.val / 16 * 16 + b.val % 16 = b.val := by omega
          rw [hr, EncodeRune_ascii b hb]
          rfl
        rw [if_neg c5] at hF ⊢
        simp only [List.cons_append, List.nil_append, List.length_cons,
          List.length_append, List.length_nil] at hF ⊢
        rw [parse_plain F' b _ (by omega) (by omega) (by omega) hb,
          ih s' t F' hl' hv2 (by omega)]
        rfl
      · have hb' : 0x80 ≤ b.val := by omega
        obtain ⟨tl, rest, hs, hsz, henc, hdec⟩ := DecodeRune_chunk b s' hb' hv1
        subst hs
        have hdrop : (b :: (tl ++ rest)).drop (DecodeRune (b :: (tl ++ rest))).2 = rest := by
          rw [hsz]; simp
        have htake : (b :: (tl ++ rest)).take (DecodeRune (b :: (tl ++ rest))).2 = b :: tl := by
          rw [hsz]; simp
        rw [hdrop] at hv2
        have hlr : rest.length ≤ n := by
          simp at hl; omega
        rw [encodeString, if_neg hb, if_neg hv1] at hF ⊢
        by_cases c1 : (DecodeRune (b :: (tl ++ rest))).1 = 0x2028
            ∨ (DecodeRune (b :: (tl ++ rest))).1 = 0x2029
        · rw [if_pos c1, hdrop] at hF ⊢
          simp only [List.cons_append, List.nil_append, List.length_cons,
            List.length_append, List.length_nil] at hF ⊢
          have h30 : byte 0x30 = hexDigit 0 := rfl
          have h32 : byte 0x32 = hexDigit 2 := rfl
          rw [h30, h32, parse_unicode F' 2 0 2 ((DecodeRune (b :: (tl ++ rest))).1 % 16)
            (by omega) (by omega) (by omega) (by omega) _ (by omega),
            ih rest t F' hlr hv2 (by omega)]
          have hr : 2 * 4096 + 0 * 256 + 2 * 16 + (DecodeRune (b :: (tl ++ rest))).1 % 16
              = (DecodeRune (b :: (tl ++ rest))).1 := by omega
          rw [hr, henc]
          rfl
        · rw [if_neg c1, hdrop, htake] at hF ⊢
          simp only [List.cons_append, List.length_cons, List.length_append] at hF ⊢
          rw [parse_high F' b _ hb', List.append_assoc, hdec, hsz]
          simp only [List.drop_succ_cons, List.drop_left]
          rw [ih rest t F' hlr hv2 (by omega), henc]
          rfl

/-! ## Properties: the record codec -/

theorem skipSpace_cons (c : Byte) (s : GoString) (h : isSpace c = false) :
    skipSpace (c :: s) = c :: s := by
  simp [skipSpace, List.dropWhile, h]

theorem quote_cons (v rest : GoString) :
    quote v ++ rest = byte 0x22 :: (encodeString v.length v ++ byte 0x22 :: rest) := by
  simp [quote]

theorem parseValue_string (k : Nat) (v rest : GoString) (hv : ValidString v.length v = true) :
    parseValue (k + 1) (quote v ++ rest) = some (JVal.str v, rest) := by
  rw [quote_cons, parseValue, skipSpace_cons _ _ (by decide)]
  have h1 : ¬ (byte 0x22).val = 0x7B := by decide
  have h2 : ¬ (byte 0x22).val = 0x5B := by decide
  have h3 : (byte 0x22).val = 0x22 := by decide
  simp only [h1, h2, h3, if_false, if_true]
  rw [parse_encode v.length v rest _ (le_refl _) hv (by simp; omega)]
  rfl

theorem parseMembers_more (k : Nat) (name v rest : GoString)
    (hn : ValidString name.length name = true) (hv : ValidString v.length v = true) :
    parseMembers (k + 2) (quote name ++ byte 0x3A :: (quote v ++ byte 0x2C :: rest))
      = (parseMembers (k + 1) rest).map (fun p => ((name, JVal.str v) :: p.1, p.2)) := by
  rw [quote_cons, parseMembers, skipSpace_cons _ _ (by decide)]
  have h3 : (byte 0x22).val = 0x22 := by decide
  simp only [h3, if_true]
  rw [parse_encode name.length name _ _ (le_refl _) hn (by simp; omega)]
  simp only []
  rw [skipSpace_cons _ _ (by decide)]
  have h4 : (byte 0x3A).val = 0x3A := by decide
  simp only [h4, if_true]
  rw [parseValue_string k v _ hv]
  simp only []
  rw [skipSpace_cons _ _ (by decide)]
  have h5 : (byte 0x2C).val = 0x2C := by decide
  simp only [h5, if_true]

theorem parseMembers_last (k : Nat) (name v rest : GoString)
    (hn : ValidString name.length name = true) (hv : ValidString v.length v = true) :
    parseMembers (k + 2) (quote name ++ byte 0x3A :: (quote v ++ byte 0x7D :: rest))
      = some ([(name, JVal.str v)], rest) := by
  rw [quote_cons, parseMembers, skipSpace_cons _ _ (by decide)]
  have h3 : (byte 0x22).val = 0x22 := by decide
  simp only [h3, if_true]
  rw [parse_encode name.length name _ _ (le_refl _) hn (by simp; omega)]
  simp only []
  rw [skipSpace_cons _ _ (by decide)]
  have h4 : (byte 0x3A).val = 0x3A := by decide
  simp only [h4, if_true]
  rw [parseValue_string k v _ hv]
  simp only []
  rw [skipSpace_cons _ _ (by decide)]
  have h5 : ¬ (byte 0x7D).val = 0x2C := by decide
  have h6 : (byte 0x7D).val = 0x7D := by decide
  simp only [h5, h6, if_false, if_true]
  simp

theorem Marshal_eq (doc : Doc) :
    Marshal doc = byte 0x7B :: (quote (lit "DStatus") ++ byte 0x3A :: (quote doc.DStatus
      ++ byte 0x2C :: (quote (lit "Timestamp") ++ byte 0x3A :: (quote doc.Timestamp
      ++ byte 0x2C :: (quote (lit "EdgeID") ++ byte 0x3A :: (quote doc.EdgeID
      ++ byte 0x7D :: [])))))) := by
  have e1 : lit "\x7b\"DStatus\":" = byte 0x7B :: (quote (lit "DStatus") ++ [byte 0x3A]) := by
    decide
  have e2 : lit ",\"Timestamp\":" = byte 0x2C :: (quote (lit "Timestamp") ++ [byte 0x3A]) := by
    decide
  have e3 : lit ",\"EdgeID\":" = byte 0x2C :: (quote (lit "EdgeID") ++ [byte 0x3A]) := by
    decide
  have e4 : lit "\x7d" = [byte 0x7D] := by decide
  rw [Marshal, e1, e2, e3, e4]
  simp [List.append_assoc]

theorem parseJSON_Marshal (doc : Doc) (h1 : ValidString doc.DStatus.length doc.DStatus = true)
    (h2 : ValidString doc.Timestamp.length doc.Timestamp = true)
    (h3 : ValidString doc.EdgeID.length doc.EdgeID = true) :
    parseJSON (Marshal doc)
      = some (JVal.obj [(lit "DStatus", JVal.str doc.DStatus),
          (lit "Timestamp", JVal.str doc.Timestamp), (lit "EdgeID", JVal.str doc.EdgeID)]) := by
  have hlen : ∃ k, 2 * (Marshal doc).length + 2 = k + 5 := by
    refine ⟨2 * (Marshal doc).length - 3, ?_⟩
    have : 2 ≤ (Marshal doc).length := by
      rw [Marshal_eq]; simp [quote]
    omega
  obtain ⟨k, hk⟩ := hlen
  rw [parseJSON, hk, Marshal_eq, parseValue, skipSpace_cons _ _ (by decide)]
  have c1 : (byte 0x7B).val = 0x7B := by decide
  simp only [c1, if_true]
  rw [quote_cons, skipSpace_cons _ _ (by decide)]
  have c2 : ¬ (byte 0x22).val = 0x7D := by decide
  simp only [c2, if_false]
  rw [← quote_cons, parseMembers_more (k + 2) _ _ _ (by decide) h1,
    parseMembers_more (k + 1) _ _ _ (by decide) h2,
    parseMembers_last k _ _ _ (by decide) h3]
  simp [skipSpace]

theorem Unmarshal_Marshal (lib : Lib) (doc : Doc)
    (h1 : ValidString doc.DStatus.length doc.DStatus = true)
    (h2 : ValidString doc.Timestamp.length doc.Timestamp = true)
    (h3 : ValidString doc.EdgeID.length doc.EdgeID = true) :
    Unmarshal lib (Marshal doc) Doc.zero = doc := by
  rw [Unmarshal, parseJSON_Marshal doc h1 h2 h3]
  have f0 : fieldIndex lib (lit "DStatus") = some 0 := by simp [fieldIndex]
  have f1 : fieldIndex lib (lit "Timestamp") = some 1 := by
    have : lit "Timestamp" ≠ lit "DStatus" := by decide
    simp [fieldIndex, this]
  have f2 : fieldIndex lib (lit "EdgeID") = some 2 := by
    have a : lit "EdgeID" ≠ lit "DStatus" := by decide
    have b : lit "EdgeID" ≠ lit "Timestamp" := by decide
    simp [fieldIndex, a, b]
  simp [Doc.setMember, f0, f1, f2, Doc.zero]

/-! ## Claim C4: create then read -/

/-- C4 (counterexample). A status that is not well-formed UTF-8 (the single
byte FF) is created with 201 and read back with 200, but the payload decodes
to U+FFFD (bytes EF BF BD), not to the status that was created; and a `read`
whose `GetState` request fails returns 404. -/
theorem C4_ill_formed_status_or_failed_get :
    ∃ r stub1,
      create plainLib emptyStub [lit "ID001", [byte 0xFF], lit "t1", lit "e1"] = some (r, stub1)
      ∧ r.Status = 201
      ∧ (∃ payload,
          (read plainLib stub1 [lit "ID001"]).map (fun p => p.1)
            = some { Status := 200, Message := lit "OK", Payload := some payload }
          ∧ Doc.FromJson plainLib Doc.zero payload
              = { DStatus := [byte 0xEF, byte 0xBF, byte 0xBD], Timestamp := lit "t1",
                  EdgeID := lit "e1" }
          ∧ Doc.FromJson plainLib Doc.zero payload
              ≠ { DStatus := [byte 0xFF], Timestamp := lit "t1", EdgeID := lit "e1" })
      ∧ (read plainLib stub1.getFailing [lit "ID001"]).map (fun p => p.1.Status) = some 404 :=
  ⟨_, _, rfl, by decide, ⟨_, rfl, by decide, by decide⟩, by decide⟩

/-- C4 (amended). If `create(id, status, timestamp, originID)` returns 201 and
the three fields are well-formed UTF-8, then a following `read(id)` on the
resulting ledger, when its `GetState` request does not fail, returns status
200 with a payload that `FromJson` decodes to the record (status, timestamp,
originID). -/
theorem C4_create_then_read (lib : Lib) (stub : Stub) (id s t e : GoString) (r : Response)
    (stub1 : Stub) (hc : create lib stub [id, s, t, e] = some (r, stub1))
    (h201 : r.Status = 201)
    (vs : ValidString s.length s = true) (vt : ValidString t.length t = true)
    (ve : ValidString e.length e = true)
    (stub2 : Stub) (h2 : stub2.State = stub1.State)
    (hget : stub2.getErr (ToLower lib id) = none) :
    ∃ payload s3,
      read lib stub2 [id]
        = some ({ Status := 200, Message := lit "OK", Payload := some payload }, s3)
      ∧ Doc.FromJson lib Doc.zero payload = { DStatus := s, Timestamp := t, EdgeID := e } := by
  obtain ⟨hs, hst⟩ := create_201 lib stub id s t e r stub1 hc h201
  rw [read_valid lib stub2 id (shape4_id id s t e hs).2, h2, hst, lookup_store_same, hget]
  exact ⟨_, _, rfl, Unmarshal_Marshal lib { DStatus := s, Timestamp := t, EdgeID := e } vs vt ve⟩

/-- C4 (witness). Creating "ID001" with the record (A, t1, e1) on the empty
ledger, then reading it through a peer that answers. -/
theorem C4_create_then_read_witness :
    ∃ payload s3,
      read plainLib oneRecordStub [lit "ID001"]
        = some ({ Status := 200, Message := lit "OK", Payload := some payload }, s3)
      ∧ Doc.FromJson plainLib Doc.zero payload
          = { DStatus := lit "A", Timestamp := lit "t1", EdgeID := lit "e1" } :=
  C4_create_then_read plainLib emptyStub (lit "ID001") (lit "A") (lit "t1") (lit "e1") _ _
    rfl (by decide) (by decide) (by decide) (by decide) oneRecordStub (by decide) rfl

/-! ## Properties: the full-range scan -/

theorem inRange_all (key : GoString) : inRange [] [] key = true := by
  simp [inRange]

theorem GetStateByRange_all (stub : Stub) (h : stub.rangeErr [] [] = none) :
    (stub.GetStateByRange [] []).1 = Except.ok stub.State := by
  simp [Stub.GetStateByRange, h, inRange_all]

/-! ## Properties: every handler returns -/

theorem search_valid (lib : Lib) (stub : Stub) (a : GoString) (h : shape1 64 [a]) :
    search lib stub [a] =
      some (match stub.queryResult (queryString a) with
            | Except.error err =>
              (Error 500 err, stub.log (Call.GetQueryResult (queryString a)))
            | Except.ok resultsIterator =>
              (Success 200 (lit "OK")
                (some (resultsIterator.foldl (searchStep lib) (lit "\x7b \"values\": [")
                    ++ lit "]\x7d")),
               (stub.log (Call.GetQueryResult (queryString a))).log Call.Close)) := by
  rcases Validate_one (lit "search") 64 [a] with ⟨_, hv⟩ | ⟨hs, _⟩
  · simp at hv
    simp [search, hv, Success, Stub.GetQueryResult]
    cases stub.queryResult (queryString a) <;> simp
  · exact absurd h hs

theorem list_eq (stub : Stub) :
    list stub =
      some (match stub.rangeErr [] [] with
            | some _ => (Error 404 (lit "Not Found"), stub.log (Call.GetStateByRange [] []))
            | none =>
              (Success 200 (lit "OK")
                (some (stub.State.foldl listStep (lit "\x7b \"values\": [") ++ lit "]\x7d")),
               (stub.log (Call.GetStateByRange [] [])).log Call.Close)) := by
  cases h : stub.rangeErr [] [] <;> simp [list, Stub.GetStateByRange, h, inRange_all]

theorem shape1_args (bound : Nat) (args : List GoString) (h : shape1 bound args) :
    ∃ a, args = [a] ∧ shape1 bound [a] := by
  obtain ⟨a, rfl, h1⟩ := h
  exact ⟨a, rfl, a, rfl, h1⟩

theorem shape4_args (args : List GoString) (h : shape4 args) :
    ∃ id s t e, args = [id, s, t, e] ∧ shape4 [id, s, t, e] := by
  obtain ⟨id, s, t, e, rfl, h1⟩ := h
  exact ⟨id, s, t, e, rfl, id, s, t, e, rfl, h1⟩

/-- What every read-only handler does: it returns, with a status that is not
501, and leaves world state and history as they were. -/
theorem exist_total (lib : Lib) (stub : Stub) (args : List GoString) :
    ∃ r s, exist lib stub args = some (r, s) ∧ r.Status ≠ 501
      ∧ s.State = stub.State ∧ s.History = stub.History := by
  by_cases hs : shape1 64 args
  · obtain ⟨a, rfl, ha⟩ := shape1_args 64 args hs
    rw [exist_valid lib stub a ha]
    cases stub.getErr (ToLower lib a) <;> cases lookup (ToLower lib a) stub.State <;>
      exact ⟨_, _, rfl, by simp [Success, Error], rfl, rfl⟩
  · obtain ⟨msg, e⟩ := exist_invalid lib stub args hs
    exact ⟨_, _, e, by simp [Error], rfl, rfl⟩

theorem read_total (lib : Lib) (stub : Stub) (args : List GoString) :
    ∃ r s, read lib stub args = some (r, s) ∧ r.Status ≠ 501
      ∧ s.State = stub.State ∧ s.History = stub.History := by
  by_cases hs : shape1 255 args
  · obtain ⟨a, rfl, ha⟩ := shape1_args 255 args hs
    rw [read_valid lib stub a ha]
    cases stub.getErr (ToLower lib a) <;> cases lookup (ToLower lib a) stub.State <;>
      exact ⟨_, _, rfl, by simp [Success, Error], rfl, rfl⟩
  · obtain ⟨msg, e⟩ := read_invalid lib stub args hs
    exact ⟨_, _, e, by simp [Error], rfl, rfl⟩

theorem list_total (stub : Stub) :
    ∃ r s, list stub = some (r, s) ∧ r.Status ≠ 501
      ∧ s.State = stub.State ∧ s.History = stub.History := by
  rw [list_eq]
  cases stub.rangeErr [] [] <;> exact ⟨_, _, rfl, by simp [Success, Error], rfl, rfl⟩

theorem history_total (lib : Lib) (stub : Stub) (args : List GoString) :
    ∃ r s, history lib stub args = some (r, s) ∧ r.Status ≠ 501
      ∧ s.State = stub.State ∧ s.History = stub.History := by
  by_cases hs : shape1 64 args
  · obtain ⟨a, rfl, ha⟩ := shape1_args 64 args hs
    rw [history_valid lib stub a ha]
    cases (stub.GetHistoryForKey (ToLower lib a)).1 <;>
      exact ⟨_, _, rfl, by simp [Success, Error], rfl, rfl⟩
  · obtain ⟨msg, e⟩ := history_invalid lib stub args hs
    exact ⟨_, _, e, by simp [Error], rfl, rfl⟩

theorem search_total (lib : Lib) (stub : Stub) (args : List GoString) :
    ∃ r s, search lib stub args = some (r, s) ∧ r.Status ≠ 501
      ∧ s.State = stub.State ∧ s.History = stub.History := by
  by_cases hs : shape1 64 args
  · obtain ⟨a, rfl, ha⟩ := shape1_args 64 args hs
    rw [search_valid lib stub a ha]
    cases stub.queryResult (queryString a) <;>
      exact ⟨_, _, rfl, by simp [Success, Error], rfl, rfl⟩
  · obtain ⟨msg, e⟩ := search_invalid lib stub args hs
    exact ⟨_, _, e, by simp [Error], rfl, rfl⟩

/-! ## Claim C11: the dispatcher -/

theorem create_total (lib : Lib) (stub : Stub) (args : List GoString) :
    ∃ r s, create lib stub args = some (r, s) ∧ r.Status ≠ 501
      ∧ ∀ k, (∀ id, args[0]? = some id → k ≠ ToLower lib id) →
          lookup k s.State = lookup k stub.State := by
  by_cases hs : shape4 args
  · obtain ⟨id, s, t, e, rfl, ha⟩ := shape4_args args hs
    rw [create_valid lib stub id s t e ha]
    cases hp : stub.putErr (ToLower lib id)
        (Doc.ToJson { DStatus := s, Timestamp := t, EdgeID := e })
    · refine ⟨_, _, rfl, by simp [Success], ?_⟩
      intro k hk
      simp only [Stub.PutState, hp, Stub.log]
      exact lookup_store_other _ k _ _ (hk id rfl)
    · refine ⟨_, _, rfl, by simp [Error], ?_⟩
      intro k _
      simp only [Stub.PutState, hp, Stub.log]
  · obtain ⟨msg, e⟩ := create_invalid lib stub args hs
    exact ⟨_, _, e, by simp [Error], fun _ _ => rfl⟩

theorem update_total (lib : Lib) (stub : Stub) (args : List GoString) :
    ∃ r s, update lib stub args = some (r, s) ∧ r.Status ≠ 501
      ∧ ∀ k, (∀ id, args[0]? = some id → k ≠ ToLower lib id) →
          lookup k s.State = lookup k stub.State := by
  by_cases hs : shape4 args
  · obtain ⟨id, s, t, e, rfl, ha⟩ := shape4_args args hs
    rw [update_valid lib stub id s t e ha]
    cases hg : stub.getErr (ToLower lib id) <;> cases hl : lookup (ToLower lib id) stub.State
    · exact ⟨_, _, rfl, by simp [Error], fun _ _ => rfl⟩
    · cases hp : stub.putErr (ToLower lib id)
          (Doc.ToJson { DStatus := s, Timestamp := t, EdgeID := e })
      · refine ⟨_, _, rfl, by simp [Success], ?_⟩
        intro k hk
        simp only [Stub.PutState, hp, Stub.log]
        exact lookup_store_other _ k _ _ (hk id rfl)
      · refine ⟨_, _, rfl, by simp [Error], ?_⟩
        intro k _
        simp only [Stub.PutState, hp, Stub.log]
    · exact ⟨_, _, rfl, by simp [Error], fun _ _ => rfl⟩
    · exact ⟨_, _, rfl, by simp [Error], fun _ _ => rfl⟩
  · obtain ⟨msg, e⟩ := update_invalid lib stub args hs
    exact ⟨_, _, e, by simp [Error], fun _ _ => rfl⟩

theorem delete_total (lib : Lib) (stub : Stub) (args : List GoString) :
    ∃ r s, delete lib stub args = some (r, s) ∧ r.Status ≠ 501
      ∧ ∀ k, (∀ id, args[0]? = some id → k ≠ ToLower lib id) →
          lookup k s.State = lookup k stub.State := by
  by_cases hs : shape1 64 args
  · obtain ⟨a, rfl, ha⟩ := shape1_args 64 args hs
    rw [delete_valid lib stub a ha]
    cases hg : stub.getErr (ToLower lib a) <;> cases hl : lookup (ToLower lib a) stub.State
    · exact ⟨_, _, rfl, by simp [Error], fun _ _ => rfl⟩
    · cases hp : stub.delErr (ToLower lib a)
      · refine ⟨_, _, rfl, by simp [Success], ?_⟩
        intro k hk
        simp only [Stub.DelState, hp, Stub.log]
        exact lookup_erase_other _ k _ (hk a rfl)
      · refine ⟨_, _, rfl, by simp [Error], ?_⟩
        intro k _
        simp only [Stub.DelState, hp, Stub.log]
    · exact ⟨_, _, rfl, by simp [Error], fun _ _ => rfl⟩
    · exact ⟨_, _, rfl, by simp [Error], fun _ _ => rfl⟩
  · obtain ⟨msg, e⟩ := delete_invalid lib stub args hs
    exact ⟨_, _, e, by simp [Error], fun _ _ => rfl⟩

theorem verbs_in_message :
    ∀ v ∈ verbs, v <:+: lit
      "Invalid method! Valid methods are 'create|update|delete|exist|read|list|history|search'!" := by
  intro v hv
  simp only [verbs, List.mem_cons, List.mem_singleton, List.not_mem_nil, or_false] at hv
  rcases hv with rfl | rfl | rfl | rfl | rfl | rfl | rfl | rfl
  · exact ⟨lit "Invalid method! Valid methods are 'create|update|delete|", lit "|read|list|history|search'!", by decide⟩
  · exact ⟨lit "Invalid method! Valid methods are 'create|update|delete|exist|", lit "|list|history|search'!", by decide⟩
  · exact ⟨lit "Invalid method! Valid methods are 'create|update|delete|exist|read|", lit "|history|search'!", by decide⟩
  · exact ⟨lit "Invalid method! Valid methods are '", lit "|update|delete|exist|read|list|history|search'!", by decide⟩
  · exact ⟨lit "Invalid method! Valid methods are 'create|", lit "|delete|exist|read|list|history|search'!", by decide⟩
  · exact ⟨lit "Invalid method! Valid methods are 'create|update|", lit "|exist|read|list|history|search'!", by decide⟩
  · exact ⟨lit "Invalid method! Valid methods are 'create|update|delete|exist|read|list|", lit "|search'!", by decide⟩
  · exact ⟨lit "Invalid method! Valid methods are 'create|update|delete|exist|read|list|history|", lit "'!", by decide⟩

/-- C11. `Invoke` routes by exact match of the verb. For a verb that is not
one of the eight it returns status 501 with a message in which each of the
eight verbs occurs, and hands the stub back as it was; for each of the eight
verbs it returns with a status other than 501. -/
theorem C11_unknown_verb (lib : Lib) (stub : Stub) (function : GoString)
    (args : List GoString) :
    (function ∉ verbs →
      ∃ r, Invoke lib stub function args = some (r, stub) ∧ r.Status = 501
        ∧ r.Payload = none ∧ ∀ v ∈ verbs, v <:+: r.Message)
    ∧ (function ∈ verbs →
      ∃ r s, Invoke lib stub function args = some (r, s) ∧ r.Status ≠ 501) := by
  constructor
  · intro h
    simp only [verbs, List.mem_cons, List.mem_singleton, not_or, List.not_mem_nil,
      or_false] at h
    obtain ⟨h1, h2, h3, h4, h5, h6, h7, h8⟩ := h
    have e : Invoke lib stub function args = some (Error 501 (lit
        "Invalid method! Valid methods are 'create|update|delete|exist|read|list|history|search'!"),
        stub) := by
      simp only [Invoke, h1, h2, h3, h4, h5, h6, h7, h8, if_false]
    exact ⟨_, e, rfl, rfl, verbs_in_message⟩
  · intro h
    simp only [verbs, List.mem_cons, List.mem_singleton, List.not_mem_nil, or_false] at h
    rcases h with rfl | rfl | rfl | rfl | rfl | rfl | rfl | rfl
    · rw [Invoke_exist]
      obtain ⟨r, s, e, h, _⟩ := exist_total lib stub args
      exact ⟨r, s, e, h⟩
    · rw [Invoke_read]
      obtain ⟨r, s, e, h, _⟩ := read_total lib stub args
      exact ⟨r, s, e, h⟩
    · rw [Invoke_list]
      obtain ⟨r, s, e, h, _⟩ := list_total stub
      exact ⟨r, s, e, h⟩
    · rw [Invoke_create]
      obtain ⟨r, s, e, h, _⟩ := create_total lib stub args
      exact ⟨r, s, e, h⟩
    · rw [Invoke_update]
      obtain ⟨r, s, e, h, _⟩ := update_total lib stub args
      exact ⟨r, s, e, h⟩
    · rw [Invoke_delete]
      obtain ⟨r, s, e, h, _⟩ := delete_total lib stub args
      exact ⟨r, s, e, h⟩
    · rw [Invoke_history]
      obtain ⟨r, s, e, h, _⟩ := history_total lib stub args
      exact ⟨r, s, e, h⟩
    · rw [Invoke_search]
      obtain ⟨r, s, e, h, _⟩ := search_total lib stub args
      exact ⟨r, s, e, h⟩

/-! ## Claim C12 and the payload of list -/

/-- C11 (witness). The verbs "frobnicate", "invalidFunction", "Create" and the
empty verb are not among the eight. -/
theorem C11_unknown_verb_witness :
    (∃ r, Invoke plainLib emptyStub (lit "frobnicate") [] = some (r, emptyStub)
        ∧ r.Status = 501 ∧ r.Payload = none ∧ ∀ v ∈ verbs, v <:+: r.Message)
    ∧ (∃ r, Invoke plainLib emptyStub (lit "invalidFunction") [] = some (r, emptyStub)
        ∧ r.Status = 501 ∧ r.Payload = none ∧ ∀ v ∈ verbs, v <:+: r.Message)
    ∧ (∃ r, Invoke plainLib emptyStub (lit "Create") [] = some (r, emptyStub)
        ∧ r.Status = 501 ∧ r.Payload = none ∧ ∀ v ∈ verbs, v <:+: r.Message)
    ∧ (∃ r, Invoke plainLib emptyStub [] [] = some (r, emptyStub)
        ∧ r.Status = 501 ∧ r.Payload = none ∧ ∀ v ∈ verbs, v <:+: r.Message) :=
  ⟨(C11_unknown_verb plainLib emptyStub (lit "frobnicate") []).1 (by decide),
   (C11_unknown_verb plainLib emptyStub (lit "invalidFunction") []).1 (by decide),
   (C11_unknown_verb plainLib emptyStub (lit "Create") []).1 (by decide),
   (C11_unknown_verb plainLib emptyStub [] []).1 (by decide)⟩

/-- C12 (counterexample). On the empty ledger `list` returns 200 with the
payload `{ "values": []}`, written with a space after the opening brace and
after the colon, which is not the byte string `{"values":[]}`; and it returns
404 when the range scan cannot start. -/
theorem C12_payload_has_spaces :
    (list emptyStub).map (fun p => p.1)
      = some { Status := 200, Message := lit "OK",
               Payload := some (lit "\x7b \"values\": []\x7d") }
    ∧ lit "\x7b \"values\": []\x7d" ≠ lit "\x7b\"values\":[]\x7d"
    ∧ (list emptyStub.rangeFailing).map (fun p => p.1.Status) = some 404 := by
  decide

/-- C12 (amended). On a ledger with no keys, when the range scan starts, `list`
returns status 200 with payload exactly the 15 bytes `{ "values": []}`. -/
theorem C12_list_empty_ledger (stub : Stub) (hempty : stub.State = [])
    (hscan : stub.rangeErr [] [] = none) :
    ∃ s, list stub
      = some ({ Status := 200, Message := lit "OK",
                Payload := some (lit "\x7b \"values\": []\x7d") }, s) := by
  rw [list_eq, hscan, hempty]
  exact ⟨_, rfl⟩

/-- C12 (witness). The empty ledger. -/
theorem C12_list_empty_ledger_witness :
    ∃ s, list emptyStub
      = some ({ Status := 200, Message := lit "OK",
                Payload := some (lit "\x7b \"values\": []\x7d") }, s) :=
  C12_list_empty_ledger emptyStub rfl rfl

theorem intercalate_cons (sep x : GoString) (xs : List GoString) :
    List.intercalate sep (x :: xs) = x ++ (xs.map (fun y => sep ++ y)).flatten := by
  induction xs generalizing x with
  | nil => simp [List.intercalate]
  | cons y ys ih =>
    have h := ih y
    simp only [List.intercalate, List.intersperse, List.flatten, List.map] at h ⊢
    rw [h, List.append_assoc]

theorem listStep_long (buffer : GoString) (it : KV) (h : 15 < buffer.length) :
    listStep buffer it = buffer ++ (lit "," ++ idObject it) := by
  simp [listStep, h, idObject, List.append_assoc]

theorem listStep_header (it : KV) :
    listStep (lit "\x7b \"values\": [") it = lit "\x7b \"values\": [" ++ idObject it := by
  have h : ¬ 15 < (lit "\x7b \"values\": [").length := by decide
  simp [listStep, h, idObject, List.append_assoc]

theorem idObject_length (it : KV) : 9 ≤ (idObject it).length := by
  have h1 : (lit "\x7b\"id\":\"").length = 7 := by decide
  have h2 : (lit "\"\x7d").length = 2 := by decide
  simp [idObject, h1, h2]
  omega

theorem foldl_listStep_long (results : List KV) :
    ∀ buffer : GoString, 15 < buffer.length →
      results.foldl listStep buffer
        = buffer ++ (results.map (fun it => lit "," ++ idObject it)).flatten := by
  induction results with
  | nil => intro buffer _; simp
  | cons it rest ih =>
    intro buffer h
    rw [List.foldl_cons, listStep_long buffer it h, ih _ (by simp; omega)]
    simp [List.append_assoc]

theorem foldl_listStep_header (results : List KV) :
    results.foldl listStep (lit "\x7b \"values\": [")
      = lit "\x7b \"values\": [" ++ List.intercalate (lit ",") (results.map idObject) := by
  cases results with
  | nil => simp [List.intercalate]
  | cons it rest =>
    have hlen : 15 < (lit "\x7b \"values\": [" ++ idObject it).length := by
      have h0 : (lit "\x7b \"values\": [").length = 13 := by decide
      have := idObject_length it
      simp [h0]; omega
    rw [List.foldl_cons, listStep_header, foldl_listStep_long rest _ hlen, List.map_cons,
      intercalate_cons, List.map_map, List.append_assoc]
    rfl

/-! ## Claim C18: the payload of list -/

/-- C18. When the full-range scan yields the entries `results`, `list` returns
status 200 with the payload made of the header `{ "values": [`, the objects
`{"id":"k"}` of the keys in scan order joined by single commas, and the
closing `]}`; and the test `buffer.Len() > 15` that decides on the comma holds
exactly when an object has been written before. -/
theorem C18_list_payload (stub : Stub) (results : List KV)
    (h : (stub.GetStateByRange [] []).1 = Except.ok results) :
    (∃ s, list stub
      = some ({ Status := 200, Message := lit "OK",
                Payload := some (lit "\x7b \"values\": ["
                  ++ List.intercalate (lit ",")
                      (results.map (fun it => lit "\x7b\"id\":\"" ++ it.Key ++ lit "\"\x7d"))
                  ++ lit "]\x7d") }, s))
    ∧ ∀ written : List KV,
        (15 < (written.foldl listStep (lit "\x7b \"values\": [")).length ↔ written ≠ []) := by
  constructor
  · cases hr : stub.rangeErr [] [] with
    | some e => simp [Stub.GetStateByRange, hr] at h
    | none =>
      rw [GetStateByRange_all stub hr] at h
      cases h
      rw [list_eq, hr]
      refine ⟨(stub.log (Call.GetStateByRange [] [])).log Call.Close, ?_⟩
      simp only [foldl_listStep_header, Success]
      rfl
  · intro written
    rw [foldl_listStep_header]
    cases written with
    | nil => simp; decide
    | cons it rest =>
      have h0 : (lit "\x7b \"values\": [").length = 13 := by decide
      have := idObject_length it
      rw [List.map_cons, intercalate_cons]
      simp [h0]
      omega

/-- C18 (witness). The ledger of the two keys "id001" and "id003". -/
theorem C18_list_payload_witness :
    (∃ s, list twoKeyStub
      = some ({ Status := 200, Message := lit "OK",
                Payload := some (lit "\x7b \"values\": ["
                  ++ List.intercalate (lit ",")
                      (twoKeyStub.State.map
                        (fun it => lit "\x7b\"id\":\"" ++ it.Key ++ lit "\"\x7d"))
                  ++ lit "]\x7d") }, s))
    ∧ ∀ written : List KV,
        (15 < (written.foldl listStep (lit "\x7b \"values\": [")).length ↔ written ≠ []) :=
  C18_list_payload twoKeyStub twoKeyStub.State (GetStateByRange_all twoKeyStub rfl)

/-- The payload of the witness of C18, written out. -/
theorem list_two_keys :
    lit "\x7b \"values\": ["
        ++ List.intercalate (lit ",")
            (twoKeyStub.State.map (fun it => lit "\x7b\"id\":\"" ++ it.Key ++ lit "\"\x7d"))
        ++ lit "]\x7d"
      = lit "\x7b \"values\": [\x7b\"id\":\"id001\"\x7d,\x7b\"id\":\"id003\"\x7d]\x7d" := by
  decide

/-! ## Claims C19 and C20 -/

theorem replaceQuotes_idem (p : GoString) : replaceQuotes (replaceQuotes p) = replaceQuotes p := by
  induction p with
  | nil => rfl
  | cons c p ih =>
    simp only [replaceQuotes, List.map_cons] at ih ⊢
    rw [ih]
    by_cases h : c.val = 0x22
    · simp [h]
    · simp [h]

theorem replaceQuotes_get (p : GoString) (i : Nat) (c : Byte) (h : p[i]? = some c) :
    (replaceQuotes p)[i]? = some (if c.val = 0x22 then byte 0x2E else c) := by
  simp [replaceQuotes, List.getElem?_map, h]

/-- C19. The pattern `search` puts into the query has the length of the
pattern it was given, holds no double quote, has a full stop wherever the
pattern has a double quote and the byte of the pattern everywhere else; the
second replacement of the source changes nothing; the query is the fixed
template on the field `DStatus` with limit 99 around that pattern, and it is
the query `search` sends for a valid argument. -/
theorem C19_sanitised_pattern (p : GoString) :
    (replaceQuotes p).length = p.length
    ∧ (∀ c ∈ replaceQuotes p, c.val ≠ 0x22)
    ∧ (∀ (i : Nat) (c : Byte), p[i]? = some c →
        (replaceQuotes p)[i]? = some (if c.val = 0x22 then byte 0x2E else c))
    ∧ replaceQuotes (replaceQuotes p) = replaceQuotes p
    ∧ queryString p
        = lit "\x7b\"selector\": \x7b\"DStatus\": \x7b\"$regex\": \"" ++ replaceQuotes p
            ++ lit "\"\x7d\x7d, \"fields\": [\"DStatus\"], \"limit\":99\x7d"
    ∧ (∀ (lib : Lib) (stub : Stub), shape1 64 [p] →
        ∃ r s, search lib stub [p] = some (r, s)
          ∧ Call.GetQueryResult (queryString p) ∈ s.Calls) := by
  refine ⟨by simp [replaceQuotes], ?_, replaceQuotes_get p, replaceQuotes_idem p,
    by rw [queryString, replaceQuotes_idem], ?_⟩
  · intro c hc
    simp only [replaceQuotes, List.mem_map] at hc
    obtain ⟨d, _, rfl⟩ := hc
    by_cases h : d.val = 0x22
    · simp [h]; decide
    · simp [h]
  · intro lib stub hs
    rw [search_valid lib stub p hs]
    cases stub.queryResult (queryString p) <;>
      exact ⟨_, _, rfl, by simp [Stub.log]⟩

/-- C20. `create`, `update` and `delete` return and leave the value of every
key other than the lower-cased first argument as it was; `exist`, `read`,
`list`, `history` and `search` return and leave world state and history as
they were. This holds for every stub and every argument list. -/
theorem C20_frame (lib : Lib) (stub : Stub) (args : List GoString) :
    (∃ r s, create lib stub args = some (r, s)
      ∧ ∀ k, (∀ id, args[0]? = some id → k ≠ ToLower lib id) →
          lookup k s.State = lookup k stub.State)
    ∧ (∃ r s, update lib stub args = some (r, s)
      ∧ ∀ k, (∀ id, args[0]? = some id → k ≠ ToLower lib id) →
          lookup k s.State = lookup k stub.State)
    ∧ (∃ r s, delete lib stub args = some (r, s)
      ∧ ∀ k, (∀ id, args[0]? = some id → k ≠ ToLower lib id) →
          lookup k s.State = lookup k stub.State)
    ∧ (∃ r s, exist lib stub args = some (r, s)
      ∧ s.State = stub.State ∧ s.History = stub.History)
    ∧ (∃ r s, read lib stub args = some (r, s)
      ∧ s.State = stub.State ∧ s.History = stub.History)
    ∧ (∃ r s, list stub = some (r, s) ∧ s.State = stub.State ∧ s.History = stub.History)
    ∧ (∃ r s, history lib stub args = some (r, s)
      ∧ s.State = stub.State ∧ s.History = stub.History)
    ∧ (∃ r s, search lib stub args = some (r, s)
      ∧ s.State = stub.State ∧ s.History = stub.History) := by
  refine ⟨?_, ?_, ?_, ?_, ?_, ?_, ?_, ?_⟩
  · obtain ⟨r, s, e, _, h⟩ := create_total lib stub args
    exact ⟨r, s, e, h⟩
  · obtain ⟨r, s, e, _, h⟩ := update_total lib stub args
    exact ⟨r, s, e, h⟩
  · obtain ⟨r, s, e, _, h⟩ := delete_total lib stub args
    exact ⟨r, s, e, h⟩
  · obtain ⟨r, s, e, _, h⟩ := exist_total lib stub args
    exact ⟨r, s, e, h⟩
  · obtain ⟨r, s, e, _, h⟩ := read_total lib stub args
    exact ⟨r, s, e, h⟩
  · obtain ⟨r, s, e, _, h⟩ := list_total stub
    exact ⟨r, s, e, h⟩
  · obtain ⟨r, s, e, _, h⟩ := history_total lib stub args
    exact ⟨r, s, e, h⟩
  · obtain ⟨r, s, e, _, h⟩ := search_total lib stub args
    exact ⟨r, s, e, h⟩

/-! ## Claims C13 to C16 -/

/-- C13 (the code at the failing input). On the ledger that holds "id001",
`create` under "ID001" with valid arguments returns 201, not 409, and the
stored record is replaced by the new one. -/
theorem C13_create_on_existing_id :
    lookup (ToLower plainLib (lit "ID001")) oneRecordStub.State
      = some (Doc.ToJson { DStatus := lit "A", Timestamp := lit "t1", EdgeID := lit "e1" })
    ∧ (create plainLib oneRecordStub [lit "ID001", lit "B", lit "t2", lit "e2"]).map
        (fun p => (p.1, lookup (lit "id001") p.2.State))
      = some ({ Status := 201, Message := lit "Entry Created", Payload := none },
              some (Doc.ToJson { DStatus := lit "B", Timestamp := lit "t2",
                                 EdgeID := lit "e2" })) := by
  decide

/-- C14. With valid arguments and a `PutState` that succeeds, `create` returns
201 whether or not the lower-cased id is already a key; the resulting world
state maps the lower-cased id to the encoding of the record, and the only
request issued is that `PutState`: no existence check is made. -/
theorem C14_create_overwrites (lib : Lib) (stub : Stub) (id s t e : GoString)
    (hv : shape4 [id, s, t, e])
    (hput : stub.putErr (ToLower lib id)
      (Doc.ToJson { DStatus := s, Timestamp := t, EdgeID := e }) = none) :
    ∃ s1, create lib stub [id, s, t, e]
        = some ({ Status := 201, Message := lit "Entry Created", Payload := none }, s1)
      ∧ lookup (ToLower lib id) s1.State
          = some (Doc.ToJson { DStatus := s, Timestamp := t, EdgeID := e })
      ∧ s1.Calls = stub.Calls ++ [Call.PutState (ToLower lib id)
          (Doc.ToJson { DStatus := s, Timestamp := t, EdgeID := e })] := by
  rw [create_valid lib stub id s t e hv, hput]
  refine ⟨_, rfl, ?_, ?_⟩
  · simp only [Stub.PutState, hput, Stub.log]
    exact lookup_store_same _ _ _
  · simp only [Stub.PutState, hput, Stub.log]

/-- C14 (witness). A second `create` of "ID001" on the ledger that holds it. -/
theorem C14_create_overwrites_witness :
    ∃ s1, create plainLib oneRecordStub [lit "ID001", lit "B", lit "t2", lit "e2"]
        = some ({ Status := 201, Message := lit "Entry Created", Payload := none }, s1)
      ∧ lookup (ToLower plainLib (lit "ID001")) s1.State
          = some (Doc.ToJson { DStatus := lit "B", Timestamp := lit "t2", EdgeID := lit "e2" })
      ∧ s1.Calls = oneRecordStub.Calls ++ [Call.PutState (ToLower plainLib (lit "ID001"))
          (Doc.ToJson { DStatus := lit "B", Timestamp := lit "t2", EdgeID := lit "e2" })] :=
  C14_create_overwrites plainLib oneRecordStub (lit "ID001") (lit "B") (lit "t2") (lit "e2")
    ⟨_, _, _, _, rfl, by decide, by decide, by decide, by decide⟩ rfl

/-- C15 (counterexample). The record whose status is the single byte FF, which
is not well-formed UTF-8, is encoded with the escape of U+FFFD and decoded to
the three bytes EF BF BD. -/
theorem C15_ill_formed_record :
    Doc.FromJson plainLib Doc.zero
        (Doc.ToJson { DStatus := [byte 0xFF], Timestamp := lit "t", EdgeID := lit "e" })
      = { DStatus := [byte 0xEF, byte 0xBF, byte 0xBD], Timestamp := lit "t", EdgeID := lit "e" }
    ∧ Doc.FromJson plainLib Doc.zero
        (Doc.ToJson { DStatus := [byte 0xFF], Timestamp := lit "t", EdgeID := lit "e" })
      ≠ { DStatus := [byte 0xFF], Timestamp := lit "t", EdgeID := lit "e" } := by
  decide

/-- C15 (amended). A record of three well-formed UTF-8 strings is decoded from
its encoding as it was; and the encoding of any record is the object of the
three fields in the order `DStatus`, `Timestamp`, `EdgeID`, each a JSON
string. -/
theorem C15_codec_round_trip (lib : Lib) (r : Doc)
    (h1 : ValidString r.DStatus.length r.DStatus = true)
    (h2 : ValidString r.Timestamp.length r.Timestamp = true)
    (h3 : ValidString r.EdgeID.length r.EdgeID = true) :
    Doc.FromJson lib Doc.zero (Doc.ToJson r) = r
    ∧ ∀ d : Doc, Doc.ToJson d
        = lit "\x7b\"DStatus\":" ++ quote d.DStatus ++ lit ",\"Timestamp\":"
            ++ quote d.Timestamp ++ lit ",\"EdgeID\":" ++ quote d.EdgeID ++ lit "\x7d" :=
  ⟨Unmarshal_Marshal lib r h1 h2 h3, fun _ => rfl⟩

/-- C15 (witness). The record (A, t1, e1). -/
theorem C15_codec_round_trip_witness :
    Doc.FromJson plainLib Doc.zero
        (Doc.ToJson { DStatus := lit "A", Timestamp := lit "t1", EdgeID := lit "e1" })
      = { DStatus := lit "A", Timestamp := lit "t1", EdgeID := lit "e1" }
    ∧ ∀ d : Doc, Doc.ToJson d
        = lit "\x7b\"DStatus\":" ++ quote d.DStatus ++ lit ",\"Timestamp\":"
            ++ quote d.Timestamp ++ lit ",\"EdgeID\":" ++ quote d.EdgeID ++ lit "\x7d" :=
  C15_codec_round_trip plainLib { DStatus := lit "A", Timestamp := lit "t1", EdgeID := lit "e1" }
    (by decide) (by decide) (by decide)

/-- C16 (counterexample). On the empty ledger, where "id001" is absent, each
of `exist`, `read`, `update` and `delete` returns the same response when the
`GetState` request fails as when it succeeds and finds nothing: 404 "Not
Found". -/
theorem C16_failed_get_looks_absent :
    (exist plainLib emptyStub.getFailing [lit "ID001"]).map (fun p => p.1)
        = (exist plainLib emptyStub [lit "ID001"]).map (fun p => p.1)
    ∧ (read plainLib emptyStub.getFailing [lit "ID001"]).map (fun p => p.1)
        = (read plainLib emptyStub [lit "ID001"]).map (fun p => p.1)
    ∧ (update plainLib emptyStub.getFailing [lit "ID001", lit "B", lit "t2", lit "e2"]).map
          (fun p => p.1)
        = (update plainLib emptyStub [lit "ID001", lit "B", lit "t2", lit "e2"]).map
          (fun p => p.1)
    ∧ (delete plainLib emptyStub.getFailing [lit "ID001"]).map (fun p => p.1)
        = (delete plainLib emptyStub [lit "ID001"]).map (fun p => p.1)
    ∧ (exist plainLib emptyStub.getFailing [lit "ID001"]).map (fun p => p.1)
        = some { Status := 404, Message := lit "Not Found", Payload := none } := by
  decide

/-- C16 (amended). For `exist`, `read`, `update` and `delete`, each with
arguments that pass its own validation, the response returned when the
`GetState` request fails with an error is the response returned when it
succeeds and the key is absent: status 404, message "Not Found", no payload. -/
theorem C16_failed_get_same_response (lib : Lib) (failing absent : Stub) (id s t e : GoString)
    (err : GoString) (hfail : failing.getErr (ToLower lib id) = some err)
    (hok : absent.getErr (ToLower lib id) = none)
    (habs : lookup (ToLower lib id) absent.State = none) :
    (shape1 64 [id] →
      (exist lib failing [id]).map (fun p => p.1)
          = some { Status := 404, Message := lit "Not Found", Payload := none }
      ∧ (exist lib absent [id]).map (fun p => p.1)
          = some { Status := 404, Message := lit "Not Found", Payload := none }
      ∧ (delete lib failing [id]).map (fun p => p.1)
          = some { Status := 404, Message := lit "Not Found", Payload := none }
      ∧ (delete lib absent [id]).map (fun p => p.1)
          = some { Status := 404, Message := lit "Not Found", Payload := none })
    ∧ (shape1 255 [id] →
      (read lib failing [id]).map (fun p => p.1)
          = some { Status := 404, Message := lit "Not Found", Payload := none }
      ∧ (read lib absent [id]).map (fun p => p.1)
          = some { Status := 404, Message := lit "Not Found", Payload := none })
    ∧ (shape4 [id, s, t, e] →
      (update lib failing [id, s, t, e]).map (fun p => p.1)
          = some { Status := 404, Message := lit "Not Found", Payload := none }
      ∧ (update lib absent [id, s, t, e]).map (fun p => p.1)
          = some { Status := 404, Message := lit "Not Found", Payload := none }) := by
  refine ⟨fun h64 => ⟨?_, ?_, ?_, ?_⟩, fun h255 => ⟨?_, ?_⟩, fun hv => ⟨?_, ?_⟩⟩
  · rw [exist_valid lib failing id h64, hfail]; rfl
  · rw [exist_valid lib absent id h64, hok, habs]; rfl
  · rw [delete_valid lib failing id h64, hfail]; rfl
  · rw [delete_valid lib absent id h64, hok, habs]; rfl
  · rw [read_valid lib failing id h255, hfail]; rfl
  · rw [read_valid lib absent id h255, hok, habs]; rfl
  · rw [update_valid lib failing id s t e hv, hfail]; rfl
  · rw [update_valid lib absent id s t e hv, hok, habs]; rfl

/-! ## Claims C16 (witness) and C17 -/

/-- C16 (witness). The id "ID001" on the empty ledger, with a peer that fails
and with one that answers, under the four verbs; and the id of 100 bytes,
valid for `read` only, under `read`. -/
theorem C16_failed_get_same_response_witness :
    ((exist plainLib emptyStub.getFailing [lit "ID001"]).map (fun p => p.1)
          = some { Status := 404, Message := lit "Not Found", Payload := none }
      ∧ (exist plainLib emptyStub [lit "ID001"]).map (fun p => p.1)
          = some { Status := 404, Message := lit "Not Found", Payload := none }
      ∧ (delete plainLib emptyStub.getFailing [lit "ID001"]).map (fun p => p.1)
          = some { Status := 404, Message := lit "Not Found", Payload := none }
      ∧ (delete plainLib emptyStub [lit "ID001"]).map (fun p => p.1)
          = some { Status := 404, Message := lit "Not Found", Payload := none })
    ∧ ((read plainLib emptyStub.getFailing [lit "ID001"]).map (fun p => p.1)
          = some { Status := 404, Message := lit "Not Found", Payload := none }
      ∧ (read plainLib emptyStub [lit "ID001"]).map (fun p => p.1)
          = some { Status := 404, Message := lit "Not Found", Payload := none })
    ∧ ((update plainLib emptyStub.getFailing [lit "ID001", lit "B", lit "t2", lit "e2"]).map
          (fun p => p.1)
          = some { Status := 404, Message := lit "Not Found", Payload := none }
      ∧ (update plainLib emptyStub [lit "ID001", lit "B", lit "t2", lit "e2"]).map
          (fun p => p.1)
          = some { Status := 404, Message := lit "Not Found", Payload := none })
    ∧ ((read plainLib emptyStub.getFailing [longId]).map (fun p => p.1)
          = some { Status := 404, Message := lit "Not Found", Payload := none }
      ∧ (read plainLib emptyStub [longId]).map (fun p => p.1)
          = some { Status := 404, Message := lit "Not Found", Payload := none }) :=
  ⟨(C16_failed_get_same_response plainLib emptyStub.getFailing emptyStub (lit "ID001") (lit "B")
      (lit "t2") (lit "e2") (lit "ledger unavailable") rfl rfl rfl).1
      ⟨_, rfl, by decide, by decide⟩,
   (C16_failed_get_same_response plainLib emptyStub.getFailing emptyStub (lit "ID001") (lit "B")
      (lit "t2") (lit "e2") (lit "ledger unavailable") rfl rfl rfl).2.1
      ⟨_, rfl, by decide, by decide⟩,
   (C16_failed_get_same_response plainLib emptyStub.getFailing emptyStub (lit "ID001") (lit "B")
      (lit "t2") (lit "e2") (lit "ledger unavailable") rfl rfl rfl).2.2
      ⟨_, _, _, _, rfl, by decide, by decide, by decide, by decide⟩,
   (C16_failed_get_same_response plainLib emptyStub.getFailing emptyStub longId (lit "B")
      (lit "t2") (lit "e2") (lit "ledger unavailable") rfl rfl rfl).2.1
      ⟨_, rfl, by decide, by decide⟩⟩

/-- C17. `Init` returns status 200 with message "OK" when the parameter list
is empty and status 400 when it has one element or more; in both cases the
stub is handed back as it was. -/
theorem C17_init (stub : Stub) (args : List GoString) :
    (args = [] →
      Init stub args = some ({ Status := 200, Message := lit "OK", Payload := none }, stub))
    ∧ (args ≠ [] → ∃ r, Init stub args = some (r, stub) ∧ r.Status = 400) := by
  constructor
  · rintro rfl
    rfl
  · intro h
    have hpos : args.length > 0 := List.length_pos.mpr h
    exact ⟨Error 400 (lit "Init: Incorrect number of arguments; no arguments were expected."),
      by simp [Init, hpos], rfl⟩

/-- C17 (witness). `Init` without parameters and with one. -/
theorem C17_init_witness :
    Init emptyStub [] = some ({ Status := 200, Message := lit "OK", Payload := none }, emptyStub)
    ∧ ∃ r, Init emptyStub [lit "x"] = some (r, emptyStub) ∧ r.Status = 400 :=
  ⟨(C17_init emptyStub []).1 rfl, (C17_init emptyStub [lit "x"]).2 (by decide)⟩

end REMChannel
